import Mathlib

/-!
Verification of the `tableau_export` repository: a shallow embedding of the
tabular transform pipeline (`report_processor/data_handler.py`), the Tableau
client's session handling (`tableau_connector/client.py`), and the report
assembly loop, together with theorems settling the frozen claims.

Modelling conventions:
* A pandas cell is a string or an integer (`Val`); `NaN`-valued cells do not
  arise in the tables the claims quantify over (CSV-parsed string columns and
  integer-coerced numeric columns), so they are not modelled.
* A `DataFrame` is a column-name list plus rows of values, positionally
  aligned; pandas raises on duplicate column labels in the operations used
  here, so label lookup reads the first occurrence.
* Machine floats appear in the source only as the `float('inf')` sort
  sentinels; they are modelled exactly by `none` in `Option` components that
  order above every finite value.
* String primitives (strip, lower, upper, split, slice) are given explicit
  character-list implementations mirroring Python's semantics on the ASCII
  data the reports carry, so that every definition evaluates by `decide`.
-/

namespace TableauExport

/-- A cell value: pandas object cells here are strings or integers. -/
inductive Val where
  | str : String → Val
  | int : Int → Val
deriving DecidableEq, Repr

/-- Python `str(value)` rendering of the cell (used by `astype(str)`). -/
def cellToStr : Val → String
  | .str s => s
  | .int n => toString n

/-- The integer carried by a cell, with 0 for strings (used only under the
hypothesis that the cell is an integer). -/
def intOf : Val → Int
  | .str _ => 0
  | .int n => n

/-- A tabular dataset: ordered column labels and rows aligned positionally. -/
structure DataFrame where
  cols : List String
  rows : List (List Val)
deriving DecidableEq, Repr

/-- pandas `df.empty`: true when either axis has length zero. -/
def isEmptyDf (df : DataFrame) : Bool :=
  df.rows.isEmpty || df.cols.isEmpty

/-- Index of the first occurrence of a column label. -/
def colIdx (cols : List String) (c : String) : Option Nat :=
  match cols with
  | [] => none
  | c' :: rest => if c' = c then some 0 else (colIdx rest c).map (· + 1)

/-- Value of row `row` at column `c` (first occurrence; `""` if absent). -/
def getCell (cols : List String) (row : List Val) (c : String) : Val :=
  match colIdx cols c with
  | some i => row.getD i (.str "")
  | none => .str ""

/-- Python's whitespace set for `str.strip()` / `str.split()` (ASCII part). -/
def isPyWS (ch : Char) : Bool :=
  ch = ' ' || ch = '\t' || ch = '\n' || ch = '\x0d' || ch = '\x0b' || ch = '\x0c'

/-- Python `str.strip()` on the character list. -/
def stripChars (cs : List Char) : List Char :=
  ((cs.dropWhile isPyWS).reverse.dropWhile isPyWS).reverse

/-- Python `str.strip()`. -/
def pyStrip (s : String) : String :=
  ⟨stripChars s.data⟩

/-- Python `str.lower()` (ASCII; the data carries no cased non-ASCII text). -/
def pyLower (s : String) : String :=
  ⟨s.data.map Char.toLower⟩

/-- Python `str.upper()` (ASCII). -/
def pyUpper (s : String) : String :=
  ⟨s.data.map Char.toUpper⟩

/-- Python slicing `s[:n]`. -/
def pyTake (s : String) (n : Nat) : String :=
  ⟨s.data.take n⟩

/-- Remove all `','` characters: `.str.replace(',', '', regex=False)`. -/
def stripCommas (s : String) : String :=
  ⟨s.data.filter (fun ch => ch ≠ ',')⟩

/-- Digits of a decimal numeral to a natural number. -/
def digitsVal (cs : List Char) : Nat :=
  cs.foldl (fun n ch => n * 10 + (ch.toNat - 48)) 0

/-- Python `int(s)`: optional surrounding whitespace, optional sign, decimal
digits; anything else raises `ValueError` (modelled as `none`). -/
def parsePyInt (s : String) : Option Int :=
  let cs := stripChars s.data
  let (sign, ds) : Int × List Char :=
    match cs with
    | '+' :: rest => (1, rest)
    | '-' :: rest => (-1, rest)
    | _ => (1, cs)
  if ds ≠ [] ∧ ds.all Char.isDigit then some (sign * (digitsVal ds : Int)) else none

/-- The composite `pd.to_numeric(·, errors='coerce')` followed by `astype(int)`: parses an
optionally signed decimal with an optional fractional part (truncated toward
zero, as `astype(int)` does) and coerces anything unparsable to `none`
(which the source then fills with 0).  Exponent notation is not modelled;
no claim exercises it. -/
def parseNumTrunc (s : String) : Option Int :=
  let cs := stripChars s.data
  let (sign, ds) : Int × List Char :=
    match cs with
    | '+' :: rest => (1, rest)
    | '-' :: rest => (-1, rest)
    | _ => (1, cs)
  let intPart := ds.takeWhile Char.isDigit
  let rest := ds.dropWhile Char.isDigit
  let (fracPart, rest2) : List Char × List Char :=
    match rest with
    | '.' :: r => (r.takeWhile Char.isDigit, r.dropWhile Char.isDigit)
    | _ => ([], rest)
  if rest2 = [] ∧ (intPart ≠ [] ∨ fracPart ≠ []) then
    some (sign * (digitsVal intPart : Int))
  else none

/-- The numeric coercion of `_pivot_dataframe` lines 74-78 applied to one
cell: integers pass through; strings have thousands separators stripped and
are parsed, unparsable values coercing to 0. -/
def coerceCell : Val → Int
  | .int n => n
  | .str s => (parseNumTrunc (stripCommas s)).getD 0

/-- Accumulating splitter for `str.split()`: `cur` holds the reversed
characters of the current word. -/
def pySplitChars (cur : List Char) : List Char → List String
  | [] => if cur = [] then [] else [⟨cur.reverse⟩]
  | c :: cs =>
    if isPyWS c then
      if cur = [] then pySplitChars [] cs
      else ⟨cur.reverse⟩ :: pySplitChars [] cs
    else pySplitChars (c :: cur) cs

/-- Python `str.split()`: split on whitespace runs, discarding empties. -/
def pySplit (s : String) : List String :=
  pySplitChars [] s.data

/-- Auxiliary accumulator for `dedupFirst`: keeps the elements not yet seen. -/
def dedupFirstAux [DecidableEq α] (seen : List α) : List α → List α
  | [] => []
  | x :: xs =>
    if x ∈ seen then dedupFirstAux seen xs
    else x :: dedupFirstAux (x :: seen) xs

/-- First-occurrence-ordered distinct elements; the group keys of
`groupby(..., sort=False)`. -/
def dedupFirst [DecidableEq α] (l : List α) : List α :=
  dedupFirstAux [] l

/-! ### Settings constants (`config/settings.py`) used by the pipeline -/

def PROGRESS_REPORT_VIEW_URL_NAME : String :=
  "Applicants-SubmittedQualifiedAdmittedWaitListedDepositedTable"

def PROGRESS_REPORT_PIVOT_INDEX_COLUMNS : List String :=
  ["Application Term", "Program", "CURRICULUM", "DEGREE"]

def PROGRESS_REPORT_PIVOT_AGG_COLUMN : String := "Measure Names"

def PROGRESS_REPORT_PIVOT_VALUES_COLUMN : String := "Measure Values"

def PROGRESS_REPORT_FINAL_COLUMN_ORDER : List String :=
  ["Application Term", "Program", "CURRICULUM", "DEGREE",
   "Submitted Applicants", "Qualified Applicants",
   "Admitted Applicants", "Wait Listed", "Deposited", "Enrolled"]

def PROGRESS_REPORT_NUMERIC_COLUMNS_FOR_INT_CONVERSION : List String :=
  ["Submitted Applicants", "Qualified Applicants",
   "Admitted Applicants", "Wait Listed", "Deposited", "Enrolled"]

def ADMIT_BREAKDOWN_VIEW_URL_NAME : String := "SubmittedApplicantStatusDetailed"

def RAW_DATA_VIEW_URL_NAME : String := "PowerCampusApplicantDownload"

def RAW_DATA_DROP_COLUMNS : List String :=
  ["Blank", "Month, Day, Year of Data Refresh Date", "Index", "Count of FIRST_NAME"]

def RAW_DATA_FINAL_COLUMN_SELECTION_ORDER : List String :=
  ["PEOPLE_CODE_ID", "FIRST_NAME", "LAST_NAME", "Personal_EMAIL", "SMU_EMAIL",
   "Application Term", "Program", "CURRICULUM", "DEGREE", "Campus",
   "ACADEMIC_SESSION", "APP_DECISION", "Submitted Applicant Decision",
   "APP_STATUS", "Submitted Applicant Status", "ENROLL_SEPARATION",
   "APPLICATION_DATE", "ACADEMIC_FLAG"]

def VIEW_URL_NAME_TO_SHEET_NAME_MAP : List (String × String) :=
  [("Applicants-SubmittedQualifiedAdmittedWaitListedDepositedTable", "Progress Report"),
   ("PowerCampusApplicantDownload", "Raw Data"),
   ("SubmittedApplicantStatusDetailed", "Application Status Breakdown")]

/-! ### `_clean_dataframe` (data_handler.py lines 19-40) -/

/-- Model of `df.drop(columns=[existing subset of drop_cols])`: keeps the columns not
listed, preserving order; a listed column absent from the input is simply not
dropped (the source filters `drop_cols` by membership first, so absence is
never an error). -/
def dropColumns (df : DataFrame) (dropCols : List String) : DataFrame :=
  { cols := df.cols.filter (fun c => ¬ dropCols.contains c),
    rows := df.rows.map (fun r =>
      ((df.cols.zip r).filter (fun p => ¬ dropCols.contains p.1)).map Prod.snd) }

/-- The row predicate `row.astype(str).str.strip().str.lower().eq(target).any()`. -/
def rowMatchesString (target : String) (r : List Val) : Bool :=
  r.any (fun v => pyLower (pyStrip (cellToStr v)) = target)

/-- The function `_clean_dataframe`: drop the configured columns that are present, then, if
a non-empty match string is configured (`if remove_row_string:`), discard every
row in which some cell, rendered as a string, trimmed and lower-cased, equals
the lower-cased, trimmed match string. -/
def clean_dataframe (df : DataFrame) (dropCols : List String)
    (removeRowString : Option String) : DataFrame :=
  let df1 := dropColumns df dropCols
  match removeRowString with
  | none => df1
  | some s =>
    if s = "" then df1
    else
      let target := pyStrip (pyLower s)
      ⟨df1.cols, df1.rows.filter (fun r => ¬ rowMatchesString target r)⟩

/-! ### `_pivot_dataframe` (data_handler.py lines 42-82) -/

/-- Sum of a list of cell values, as pandas `Series.sum` behaves on the
columns exercised here: an all-integer column sums to the integer sum (an
empty selection sums to 0, which is also the `fill_value=0` of the pivot);
an all-string column concatenates.  (pandas raises on genuinely mixed
object columns; no claim exercises that case.) -/
def sumVals (vs : List Val) : Val :=
  if vs.all (fun v => match v with | .int _ => true | .str _ => false) then
    .int ((vs.map intOf).sum)
  else
    .str (vs.foldl (fun a v => a ++ cellToStr v) "")

/-- Model of `df.pivot_table(index=index_cols, columns=agg_col, values=values_col,
aggfunc="sum", fill_value=0).reset_index()`: one output row per distinct
index-column tuple, one output column per distinct category value, each
holding the sum of the value column over the matching rows (0 when no row
matches).  pandas sorts the group keys and category labels; every claim
below is insensitive to the pivot's row and category order, which is
modelled as first occurrence. -/
def pivotTable (df : DataFrame) (indexCols : List String)
    (aggCol valCol : String) : DataFrame :=
  let keyOf : List Val → List Val := fun r => indexCols.map (getCell df.cols r)
  let keys := dedupFirst (df.rows.map keyOf)
  let cats := dedupFirst (df.rows.map (fun r => cellToStr (getCell df.cols r aggCol)))
  { cols := indexCols ++ cats,
    rows := keys.map (fun k =>
      let grp := df.rows.filter (fun r => keyOf r == k)
      k ++ cats.map (fun cat =>
        sumVals ((grp.filter (fun r => cellToStr (getCell df.cols r aggCol) == cat)).map
          (fun r => getCell df.cols r valCol)))) }

/-- One row of `df.reindex(columns=order, fill_value=0)`. -/
def reindexRow (cols order : List String) (r : List Val) : List Val :=
  order.map (fun c => if cols.contains c then getCell cols r c else .int 0)

/-- Model of `df.reindex(columns=order, fill_value=0)`: select/reorder the columns to
`order`, filling a column absent from the input with integer 0 (the source
comments that this fill is used even where a string column would be expected). -/
def reindexTo (df : DataFrame) (order : List String) : DataFrame :=
  ⟨order, df.rows.map (reindexRow df.cols order)⟩

/-- The function `_pivot_dataframe`: empty input short-circuits to an empty table with the
final column order; otherwise pivot if both pivot columns are present (else
use the data as already wide); append any missing final column (0 if numeric,
"" otherwise); reindex to exactly the final order; and coerce each numeric
column to integers via `coerceCell`. -/
def pivot_dataframe (df : DataFrame) (indexCols : List String)
    (aggCol valCol : String) (finalColOrder numericCols : List String) : DataFrame :=
  if isEmptyDf df then ⟨finalColOrder, []⟩
  else
    let p :=
      if df.cols.contains aggCol && df.cols.contains valCol then
        pivotTable df indexCols aggCol valCol
      else df
    let missing := finalColOrder.filter (fun c => ¬ p.cols.contains c)
    let p2 : DataFrame :=
      ⟨p.cols ++ missing,
       p.rows.map (fun r =>
         r ++ missing.map (fun c => if numericCols.contains c then Val.int 0 else Val.str ""))⟩
    let p3 := reindexTo p2 finalColOrder
    ⟨finalColOrder,
     p3.rows.map (fun r =>
       finalColOrder.map (fun c =>
         if numericCols.contains c then Val.int (coerceCell (getCell finalColOrder r c))
         else getCell finalColOrder r c))⟩

/-! ### `_add_subtotals_and_grandtotal` (data_handler.py lines 84-203)

The custom sort key: `get_sort_keys` returns a pair `(year, term_rank)` of
floats where `float('inf')` marks a missing/unparsable component; this is
modelled as an `Option` whose `none` orders above every finite value.
`sort_values` then lexsorts (a stable sort) by `(year, term_rank)` and, when
a `Program` column exists, by `Program` as a third component; with no
`Program` column the third component below is the constant `""`, which
leaves the comparison unchanged. -/

/-- The map `term_order_map = {'SPRING': 0, 'SUMMER': 1, 'FALL': 2}` via `.get`. -/
def termOrderMap (name : String) : Option Nat :=
  if name = "SPRING" then some 0
  else if name = "SUMMER" then some 1
  else if name = "FALL" then some 2
  else none

/-- The function `get_sort_keys` (lines 101-113): blank (after stripping) or literally
`"Grand Total"` terms map to `(inf, inf)`; otherwise the term is upper-cased
and split on whitespace, the year is `int(parts[-1])` when there are at least
two parts and that parses (else `inf`), and the rank is the term-order map of
the first part (`inf` for names not in the map).  (`pd.isna` cannot fire on
the string-valued term columns the claims range over, and a non-string term
value would raise `AttributeError` in the source; the key is therefore
applied to the cell's string rendering.) -/
def get_sort_keys (term : String) : Option Int × Option Nat :=
  if pyStrip term = "" ∨ term = "Grand Total" then (none, none)
  else
    let parts := pySplit (pyUpper term)
    let termName := parts.headD ""
    let year : Option Int :=
      if parts.length > 1 then parsePyInt (parts.getLastD "") else none
    (year, termOrderMap termName)

/-- Modelled from the spec's words (for comparison against `get_sort_keys`,
claim C4): "`termRank` maps {Spring:0, Summer:1, Fall:2} and
unknown/blank/`"Grand Total"` terms sort to (+infinity, +infinity)" — i.e. a
term whose name is not in the map is sent to `(none, none)` wholesale,
rather than keeping its parsed year. -/
def claimGetSortKeys (term : String) : Option Int × Option Nat :=
  if pyStrip term = "" ∨ term = "Grand Total" then (none, none)
  else
    let parts := pySplit (pyUpper term)
    match termOrderMap (parts.headD "") with
    | none => (none, none)
    | some rank =>
      (if parts.length > 1 then parsePyInt (parts.getLastD "") else none, some rank)

/-- Strict comparison of optional years where `none` plays `float('inf')`:
every finite value is below `none`, and `none` is not below anything. -/
def intLtB : Option Int → Option Int → Bool
  | some a, some b => decide (a < b)
  | some _, none => true
  | none, _ => false

/-- Strict comparison of optional term ranks, `none` again `float('inf')`. -/
def natLtB : Option Nat → Option Nat → Bool
  | some a, some b => decide (a < b)
  | some _, none => true
  | none, _ => false

/-- Code-point comparison of character lists, as Python compares `str` (and
as pandas orders an object column of strings). -/
def leChars : List Char → List Char → Bool
  | [], _ => true
  | _ :: _, [] => false
  | a :: as, b :: bs =>
    if a.toNat < b.toNat then true
    else if b.toNat < a.toNat then false
    else leChars as bs

/-- Code-point comparison of strings. -/
def leStr (s t : String) : Bool :=
  leChars s.data t.data

/-- Lexicographic combination of a strict first-component comparison with a
second-component order, as `np.lexsort` orders by successive columns. -/
def lexLe {α β : Type _} (ltA : α → α → Bool) (leB : β → β → Bool)
    (p q : α × β) : Bool :=
  if ltA p.1 q.1 then true
  else if ltA q.1 p.1 then false
  else leB p.2 q.2

/-- The full per-row sort key: `(year, rank)` from the `Application Term`
column, then the `Program` column rendered as a string when that column is
present (the source appends `Program` to the sort columns only then). -/
def rowSortKey (cols : List String) (r : List Val) :
    Option Int × (Option Nat × String) :=
  let k := get_sort_keys (cellToStr (getCell cols r "Application Term"))
  let prog := if cols.contains "Program" then cellToStr (getCell cols r "Program") else ""
  (k.1, (k.2, prog))

/-- Boolean row comparison implementing
`sort_values(by=[year, rank, Program?], ascending=True)`. -/
def rowLeB (cols : List String) (r₁ r₂ : List Val) : Bool :=
  lexLe intLtB (lexLe natLtB leStr) (rowSortKey cols r₁) (rowSortKey cols r₂)

/-- The row ordering used by the sort, as a relation. -/
def sortRel (cols : List String) (r₁ r₂ : List Val) : Prop :=
  rowLeB cols r₁ r₂ = true

instance (cols : List String) : DecidableRel (sortRel cols) :=
  fun _r₁ _r₂ => inferInstanceAs (Decidable (_ = true))

/-- The sorting step (lines 99-134): with an `Application Term` column, a
stable sort by `(year, rank, Program-if-present)`; with only a `Program`
column, the fallback `sort_values(by=["Program"])` (the term component of the
key is then the constant key of `""`, so the same relation implements it);
with neither column, no sort.  `np.lexsort`, which pandas uses for the
multi-column sort, is stable, matching `insertionSort`. -/
def sortPhaseRows (df : DataFrame) : List (List Val) :=
  if df.cols.contains "Application Term" || df.cols.contains "Program" then
    List.insertionSort (sortRel df.cols) df.rows
  else df.rows

/-- One subtotal row (lines 157-172), expressed column-by-column over the
final order: the term column carries the group's term, `Program` carries
`"Total"` (both assigned after the sums dict, so they win over a sum),
each aggregated column carries the per-group sum, and every other column —
whether an index column or not — is filled with `""`. -/
def subtotalRow (finalOrder numSum : List String) (term : Val)
    (grp : List (List Val)) : List Val :=
  finalOrder.map (fun c =>
    if c = "Application Term" then term
    else if c = "Program" then Val.str "Total"
    else if numSum.contains c then sumVals (grp.map (fun r => getCell finalOrder r c))
    else Val.str "")

/-- The grand-total row (lines 185-194): term column `"Grand Total"`
(assigned after the sums dict), aggregated columns summed over the whole
(pre-subtotal) pivot table, all other columns `""` (`Program` is not
special-cased here). -/
def grandTotalRow (finalOrder numSum : List String)
    (allRows : List (List Val)) : List Val :=
  finalOrder.map (fun c =>
    if c = "Application Term" then Val.str "Grand Total"
    else if numSum.contains c then sumVals (allRows.map (fun r => getCell finalOrder r c))
    else Val.str "")

/-- The `numeric_cols_for_sum` list (lines 138-140): the configured
aggregation columns present in the (pre-reindex) sorted table. -/
def aggColsOf (subtotalColsToAgg cols : List String) : List String :=
  subtotalColsToAgg.filter (fun c => cols.contains c)

/-- The `Application Term` cell of a row of the reindexed table. -/
def termCell (finalColOrder : List String) (r : List Val) : Val :=
  getCell finalColOrder r "Application Term"

/-- The group block contributed by one term value `k` (lines 149-172). -/
def termBlock (finalColOrder numSum : List String) (rows : List (List Val))
    (k : Val) : List (List Val) :=
  let grp := rows.filter (fun r => termCell finalColOrder r == k)
  if k = Val.str "Grand Total" then grp
  else grp ++ [subtotalRow finalColOrder numSum k grp]

/-- The concatenation of all group blocks, in first-occurrence term order
(`groupby(..., sort=False)` iterates the groups that way). -/
def groupedBody (finalColOrder numSum : List String)
    (rows : List (List Val)) : List (List Val) :=
  ((dedupFirst (rows.map (termCell finalColOrder))).map
    (termBlock finalColOrder numSum rows)).flatten

/-- The function `_add_subtotals_and_grandtotal`: an empty table is returned unchanged;
otherwise the rows are custom-sorted, the aggregation columns are the
configured subtotal columns present in the (pre-reindex) table, the table is
reindexed onto the final order, and the rows are grouped by the
`Application Term` value (first-occurrence order, like
`groupby(..., sort=False)`).  Each non-`"Grand Total"` group contributes its
data rows followed by one subtotal row; a `"Grand Total"` group passes
through untouched.  If no row's term is `"Grand Total"` and there are
aggregation columns, one grand-total row summed over the pre-subtotal rows is
appended.  The result is reindexed onto the final order once more.
`none` models the `KeyError` the source raises when the term column is
missing after reindexing or an aggregation column is absent from the final
order (possible only for configurations never used by this repository). -/
def add_subtotals_and_grandtotal (pivotDf : DataFrame)
    (subtotalColsToAgg finalColOrder : List String) : Option DataFrame :=
  if isEmptyDf pivotDf then some pivotDf
  else
    let numSum := aggColsOf subtotalColsToAgg pivotDf.cols
    let p := reindexTo ⟨pivotDf.cols, sortPhaseRows pivotDf⟩ finalColOrder
    if finalColOrder.contains "Application Term"
        && numSum.all (fun c => finalColOrder.contains c) then
      let body := groupedBody finalColOrder numSum p.rows
      if body.isEmpty then some (reindexTo p finalColOrder)
      else
        let hasGT := p.rows.any (fun r => termCell finalColOrder r == Val.str "Grand Total")
        let rows2 :=
          if !hasGT && !numSum.isEmpty then
            body ++ [grandTotalRow finalColOrder numSum p.rows]
          else body
        some (reindexTo ⟨finalColOrder, rows2⟩ finalColOrder)
    else none

/-! ### The per-report transforms (data_handler.py lines 206-286)

The index-column lists are passed through to `_add_subtotals_and_grandtotal`
in the source but only ever read to decide which columns to blank in the
synthetic rows, which collapses to the unconditional `""` fill in
`subtotalRow`/`grandTotalRow`; they are therefore not separate parameters
here. -/

/-- The function `process_raw_data_applicant_download` (lines 274-286): drop the configured
columns that are present, then select-and-reorder to the listed columns that
exist; when none of the listed columns exists, the table is returned as-is
after the drops (with a warning). -/
def process_raw_data_applicant_download (dfRaw : DataFrame) : DataFrame :=
  let df1 := dropColumns dfRaw RAW_DATA_DROP_COLUMNS
  let existing := RAW_DATA_FINAL_COLUMN_SELECTION_ORDER.filter
    (fun c => df1.cols.contains c)
  if existing.isEmpty then df1
  else ⟨existing, df1.rows.map (fun r => existing.map (getCell df1.cols r))⟩

/-! ### `TableauClient` session state (client.py lines 57-59 and 169-186) -/

/-- The client's mutable session fields, all `None` until `authenticate`
succeeds. -/
structure TableauClientState where
  auth_token : Option String
  site_id : Option String
  user_id : Option String
deriving DecidableEq, Repr

/-- The method `sign_out`: the guard `if not self.auth_token:` (line 173) is
a Python truthiness test, so both a missing token (`None`) and an empty
token string make the method log and return at once without touching any
field; otherwise it POSTs to `auth/signout` — the outcome `postResult` of
that request is caught if it fails (only `TableauAPIError` can escape
`_make_api_request`) and ignored — and the `finally` block then clears all
three session fields.  The returned `Bool` records whether the POST was
attempted.  The method never raises. -/
def sign_out (s : TableauClientState) (postResult : Except String Unit) :
    TableauClientState × Bool :=
  if s.auth_token = none ∨ s.auth_token = some "" then (s, false)
  else
    match postResult with
    | .ok _ => (⟨none, none, none⟩, true)
    | .error _ => (⟨none, none, none⟩, true)

/-! ### `generate_excel_sheets_from_views` (data_handler.py lines 289-347) -/

/-- A view descriptor as consumed by the loop; a `none` field models a key
missing from the dict (`dict.get`). -/
structure ViewDetails where
  id : Option String
  viewUrlName : Option String
  name : Option String
deriving DecidableEq, Repr

/-- Python `view_details.get("name", view_url_name)`. -/
def viewDisplayName (v : ViewDetails) : String :=
  match v.name with
  | some n => n
  | none =>
    match v.viewUrlName with
    | some u => u
    | none => ""

/-- The lookup `VIEW_URL_NAME_TO_SHEET_NAME_MAP.get(view_url_name, view_url_name[:31])`. -/
def lookupSheetName (u : String) : String :=
  match VIEW_URL_NAME_TO_SHEET_NAME_MAP.find? (fun p => p.1 = u) with
  | some p => p.2
  | none => pyTake u 31

/-- The one-row error table written when a view fails (line 343). -/
def errorDf (displayName msg : String) : DataFrame :=
  ⟨["Error"],
   [[Val.str ("Could not load/process data for view " ++ displayName ++ ": " ++ msg)]]⟩

/-- The sheets contributed by a single view.  The fetch of the CSV, its
parsing, and the dispatch to the matching transform (the whole `try` body
up to the write) are abstracted as `fetchTransform`, an oracle producing
either the processed table or the message of the raised exception.  A view
whose `id` or `viewUrlName` is missing or empty (Python falsiness) is
skipped before the oracle is consulted; a non-empty result is written under
the mapped sheet name, an empty result as an empty sheet under the same
name, and a failure as the one-row error table under
`"ERROR_" ++ sheet_name[:25]`. -/
def sheetsForViewValid (fetchTransform : ViewDetails → Except String DataFrame)
    (v : ViewDetails) (i u : String) : List (String × DataFrame) :=
  if i = "" || u = "" then []
  else
    let sheetName := lookupSheetName u
    match fetchTransform v with
    | .ok df =>
      if !(isEmptyDf df) then [(sheetName, df)]
      else [(sheetName, ⟨[], []⟩)]
    | .error e => [("ERROR_" ++ pyTake sheetName 25, errorDf (viewDisplayName v) e)]

def sheetsForView (fetchTransform : ViewDetails → Except String DataFrame)
    (v : ViewDetails) : List (String × DataFrame) :=
  match v.id, v.viewUrlName with
  | some i, some u => sheetsForViewValid fetchTransform v i u
  | _, _ => []

/-- The function `generate_excel_sheets_from_views`: the views are processed strictly in
order, each contributing its sheets independently of the others. -/
def generate_excel_sheets_from_views
    (fetchTransform : ViewDetails → Except String DataFrame)
    (views : List ViewDetails) : List (String × DataFrame) :=
  views.flatMap (sheetsForView fetchTransform)

/-! ## Lemmas about the embedding -/

lemma colIdx_ne_none_of_mem {cols : List String} {c : String} (h : c ∈ cols) :
    colIdx cols c ≠ none := by
  induction cols with
  | nil => cases h
  | cons c' rest ih =>
    by_cases hc : c' = c
    · simp [colIdx, hc]
    · have hm : c ∈ rest := by
        rcases List.mem_cons.mp h with h' | h'
        · exact absurd h'.symm hc
        · exact h'
      simp only [colIdx, if_neg hc]
      intro hcon
      exact ih hm (Option.map_eq_none.mp hcon)

lemma getCell_map_self (order : List String) (f : String → Val) {c : String}
    (h : c ∈ order) : getCell order (order.map f) c = f c := by
  induction order with
  | nil => cases h
  | cons c' rest ih =>
    by_cases hc : c' = c
    · subst hc
      simp [getCell, colIdx]
    · have hm : c ∈ rest := by
        rcases List.mem_cons.mp h with h' | h'
        · exact absurd h'.symm hc
        · exact h'
      have ihm := ih hm
      simp only [getCell, colIdx, if_neg hc, List.map_cons] at ihm ⊢
      cases hidx : colIdx rest c with
      | none => exact absurd hidx (colIdx_ne_none_of_mem hm)
      | some i =>
        rw [hidx] at ihm
        simpa using ihm

lemma getCell_reindexRow (cols order : List String) (r : List Val) {c : String}
    (h : c ∈ order) :
    getCell order (reindexRow cols order r) c =
      if cols.contains c then getCell cols r c else .int 0 :=
  getCell_map_self order _ h

lemma mem_dedupFirstAux [DecidableEq α] {a : α} :
    ∀ {l seen : List α}, a ∈ dedupFirstAux seen l ↔ a ∈ l ∧ a ∉ seen := by
  intro l
  induction l with
  | nil => simp [dedupFirstAux]
  | cons x xs ih =>
    intro seen
    by_cases hx : x ∈ seen
    · rw [dedupFirstAux, if_pos hx, ih]
      constructor
      · rintro ⟨h1, h2⟩
        exact ⟨List.mem_cons_of_mem _ h1, h2⟩
      · rintro ⟨h1, h2⟩
        rcases List.mem_cons.mp h1 with rfl | h1'
        · exact absurd hx h2
        · exact ⟨h1', h2⟩
    · rw [dedupFirstAux, if_neg hx]
      constructor
      · intro h
        rcases List.mem_cons.mp h with rfl | h'
        · exact ⟨List.mem_cons_self _ _, hx⟩
        · obtain ⟨h1, h2⟩ := ih.mp h'
          refine ⟨List.mem_cons_of_mem _ h1, fun hs => h2 (List.mem_cons_of_mem _ hs)⟩
      · rintro ⟨h1, h2⟩
        rcases List.mem_cons.mp h1 with rfl | h1'
        · exact List.mem_cons_self _ _
        · by_cases hax : a = x
          · exact hax ▸ List.mem_cons_self _ _
          · refine List.mem_cons_of_mem _ (ih.mpr ⟨h1', ?_⟩)
            intro hs
            rcases List.mem_cons.mp hs with h' | h'
            · exact hax h'
            · exact h2 h'

lemma mem_dedupFirst [DecidableEq α] {a : α} {l : List α} :
    a ∈ dedupFirst l ↔ a ∈ l := by
  rw [dedupFirst, mem_dedupFirstAux]
  simp

lemma nodup_dedupFirstAux [DecidableEq α] :
    ∀ {l seen : List α}, (dedupFirstAux seen l).Nodup := by
  intro l
  induction l with
  | nil => simp [dedupFirstAux]
  | cons x xs ih =>
    intro seen
    by_cases hx : x ∈ seen
    · rw [dedupFirstAux, if_pos hx]
      exact ih
    · rw [dedupFirstAux, if_neg hx]
      refine List.nodup_cons.mpr ⟨?_, ih⟩
      intro hmem
      exact (mem_dedupFirstAux.mp hmem).2 (List.mem_cons_self _ _)

lemma nodup_dedupFirst [DecidableEq α] {l : List α} : (dedupFirst l).Nodup :=
  nodup_dedupFirstAux

lemma dedupFirst_ne_nil [DecidableEq α] {l : List α} (h : l ≠ []) :
    dedupFirst l ≠ [] := by
  cases l with
  | nil => exact absurd rfl h
  | cons x xs =>
    rw [dedupFirst, dedupFirstAux]
    simp

lemma sumVals_int {vs : List Val} (h : ∀ v ∈ vs, ∃ n, v = Val.int n) :
    sumVals vs = .int ((vs.map intOf).sum) := by
  have hall : (vs.all (fun v => match v with | .int _ => true | .str _ => false)) = true := by
    rw [List.all_eq_true]
    intro v hv
    obtain ⟨n, rfl⟩ := h v hv
    rfl
  simp [sumVals, hall]

lemma sortPhaseRows_perm (df : DataFrame) : (sortPhaseRows df).Perm df.rows := by
  unfold sortPhaseRows
  split
  · exact List.perm_insertionSort _ _
  · exact List.Perm.refl _

lemma filter_map_comm {α β} (f : α → β) (p : β → Bool) (l : List α) :
    (l.map f).filter p = (l.filter (fun a => p (f a))).map f := by
  induction l with
  | nil => rfl
  | cons x xs ih =>
    by_cases hx : p (f x) = true
    · simp [List.filter_cons, hx, ih]
    · simp only [Bool.not_eq_true] at hx
      simp [List.filter_cons, hx, ih]

/-- Stability of `insertionSort`: filtering the sorted list to a single key
class gives the same list as filtering the input, provided the relation is
reflexive-on-equal-keys and ties happen exactly within a key class. -/
lemma insertionSort_filter_key {α κ : Type _} [DecidableEq κ]
    (r : α → α → Prop) [DecidableRel r] (k : α → κ)
    (hrefl : ∀ a b, k a = k b → r a b)
    (l : List α) (K : κ) :
    (List.insertionSort r l).filter (fun a => k a = K) =
      l.filter (fun a => k a = K) := by
  induction l with
  | nil => rfl
  | cons x l ih =>
    have hsplit := @List.takeWhile_append_dropWhile _
      (fun b => decide (¬ r x b)) (List.insertionSort r l)
    have hfS : (List.insertionSort r l).filter (fun a => k a = K) =
        ((List.insertionSort r l).takeWhile (fun b => decide (¬ r x b))).filter
            (fun a => k a = K) ++
          ((List.insertionSort r l).dropWhile (fun b => decide (¬ r x b))).filter
            (fun a => k a = K) := by
      conv_lhs => rw [← hsplit]
      rw [List.filter_append]
    rw [show List.insertionSort r (x :: l) = (List.insertionSort r l).orderedInsert r x
          from rfl,
        List.orderedInsert_eq_take_drop, List.filter_append]
    by_cases hk : k x = K
    · have htw : ((List.insertionSort r l).takeWhile
          (fun b => decide (¬ r x b))).filter (fun a => k a = K) = [] := by
        rw [List.filter_eq_nil_iff]
        intro b hb hbk
        have hq := List.mem_takeWhile_imp hb
        have : ¬ r x b := by simpa using hq
        exact this (hrefl x b (by rw [hk]; exact (of_decide_eq_true hbk).symm ▸ hk ▸ rfl))
      rw [htw, List.nil_append, List.filter_cons_of_pos (by simpa using hk),
          List.filter_cons_of_pos (by simpa using hk)]
      rw [htw, List.nil_append] at hfS
      rw [← hfS, ih]
    · rw [List.filter_cons_of_neg (by simpa using hk),
          List.filter_cons_of_neg (by simpa using hk)]
      rw [← List.filter_append, hsplit, ih]

lemma flatten_map_split {κ α : Type _} {ks : List κ} {k : κ}
    (hnd : ks.Nodup) (hk : k ∈ ks) (B : κ → List α) :
    ∃ P Q, (ks.map B).flatten = P ++ B k ++ Q ∧
      (∀ a ∈ P, ∃ k2, k2 ∈ ks ∧ k2 ≠ k ∧ a ∈ B k2) ∧
      (∀ a ∈ Q, ∃ k2, k2 ∈ ks ∧ k2 ≠ k ∧ a ∈ B k2) := by
  obtain ⟨s, t, rfl⟩ := List.append_of_mem hk
  have hnds := List.nodup_append.mp hnd
  have hks : k ∉ s := fun hmem => (hnds.2.2 hmem) (List.mem_cons_self _ _)
  have hkt : k ∉ t := (List.nodup_cons.mp hnds.2.1).1
  refine ⟨(s.map B).flatten, (t.map B).flatten, ?_, ?_, ?_⟩
  · simp [List.flatten_append]
  · intro a ha
    obtain ⟨bs, hbs, hab⟩ := List.mem_flatten.mp ha
    obtain ⟨k2, hk2, rfl⟩ := List.mem_map.mp hbs
    exact ⟨k2, List.mem_append_left _ hk2, fun he => hks (he ▸ hk2), hab⟩
  · intro a ha
    obtain ⟨bs, hbs, hab⟩ := List.mem_flatten.mp ha
    obtain ⟨k2, hk2, rfl⟩ := List.mem_map.mp hbs
    refine ⟨k2, List.mem_append_right _ (List.mem_cons_of_mem _ hk2),
      fun he => hkt (he ▸ hk2), hab⟩

lemma termCell_subtotalRow {fo : List String} (numSum : List String) (k : Val)
    (grp : List (List Val)) (hterm : "Application Term" ∈ fo) :
    termCell fo (subtotalRow fo numSum k grp) = k := by
  unfold termCell subtotalRow
  rw [getCell_map_self _ _ hterm]
  simp

lemma termCell_grandTotalRow {fo : List String} (numSum : List String)
    (allRows : List (List Val)) (hterm : "Application Term" ∈ fo) :
    termCell fo (grandTotalRow fo numSum allRows) = Val.str "Grand Total" := by
  unfold termCell grandTotalRow
  rw [getCell_map_self _ _ hterm]
  simp

lemma termCell_of_mem_termBlock {fo numSum : List String} {rows : List (List Val)}
    {k : Val} {r : List Val} (hterm : "Application Term" ∈ fo)
    (h : r ∈ termBlock fo numSum rows k) : termCell fo r = k := by
  unfold termBlock at h
  split at h
  · exact eq_of_beq (List.mem_filter.mp h).2
  · rcases List.mem_append.mp h with h' | h'
    · exact eq_of_beq (List.mem_filter.mp h').2
    · rw [List.mem_singleton.mp h']
      exact termCell_subtotalRow _ _ _ hterm

lemma termBlock_ne_nil {fo numSum : List String} {rows : List (List Val)} {k : Val}
    (hex : ∃ r ∈ rows, termCell fo r = k) : termBlock fo numSum rows k ≠ [] := by
  obtain ⟨r, hr, hrk⟩ := hex
  have hmem : r ∈ rows.filter (fun r => termCell fo r == k) :=
    List.mem_filter.mpr ⟨hr, beq_iff_eq.mpr hrk⟩
  unfold termBlock
  split
  · exact List.ne_nil_of_mem hmem
  · simp

lemma groupedBody_ne_nil {fo numSum : List String} {rows : List (List Val)}
    (h : rows ≠ []) : groupedBody fo numSum rows ≠ [] := by
  intro hcon
  have hkeys : dedupFirst (rows.map (termCell fo)) ≠ [] :=
    dedupFirst_ne_nil (by simpa using h)
  obtain ⟨k, hkmem⟩ := List.exists_mem_of_ne_nil _ hkeys
  obtain ⟨r, hr, hrk⟩ := List.mem_map.mp (mem_dedupFirst.mp hkmem)
  have hbne := @termBlock_ne_nil fo numSum rows k ⟨r, hr, hrk⟩
  unfold groupedBody at hcon
  rw [List.flatten_eq_nil_iff] at hcon
  exact hbne (hcon _ (List.mem_map_of_mem _ hkmem))

lemma termCell_of_mem_groupedBody {fo numSum : List String} {rows : List (List Val)}
    {r : List Val} (hterm : "Application Term" ∈ fo)
    (h : r ∈ groupedBody fo numSum rows) :
    ∃ r0 ∈ rows, termCell fo r = termCell fo r0 := by
  unfold groupedBody at h
  obtain ⟨bs, hbs, hab⟩ := List.mem_flatten.mp h
  obtain ⟨k, hkmem, rfl⟩ := List.mem_map.mp hbs
  obtain ⟨r0, hr0, hrk⟩ := List.mem_map.mp (mem_dedupFirst.mp hkmem)
  exact ⟨r0, hr0, by rw [termCell_of_mem_termBlock hterm hab, hrk]⟩

lemma groupedBody_split {fo numSum : List String} {rows : List (List Val)} {k : Val}
    (hterm : "Application Term" ∈ fo)
    (hk : k ∈ dedupFirst (rows.map (termCell fo)))
    (hkgt : k ≠ Val.str "Grand Total") :
    ∃ P Q,
      groupedBody fo numSum rows =
        P ++ (rows.filter (fun r => termCell fo r == k) ++
          [subtotalRow fo numSum k (rows.filter (fun r => termCell fo r == k))]) ++ Q ∧
      (∀ r ∈ P, termCell fo r ≠ k) ∧ (∀ r ∈ Q, termCell fo r ≠ k) := by
  obtain ⟨P, Q, heq, hP, hQ⟩ :=
    flatten_map_split nodup_dedupFirst hk (termBlock fo numSum rows)
  refine ⟨P, Q, ?_, ?_, ?_⟩
  · rw [groupedBody, heq]
    unfold termBlock
    rw [if_neg hkgt]
  · intro r hr
    obtain ⟨k2, _, hk2ne, hrB⟩ := hP r hr
    rw [termCell_of_mem_termBlock hterm hrB]
    exact hk2ne
  · intro r hr
    obtain ⟨k2, _, hk2ne, hrB⟩ := hQ r hr
    rw [termCell_of_mem_termBlock hterm hrB]
    exact hk2ne

lemma getCell_reindex_self {fo : List String} {c : String} (h : c ∈ fo)
    (b : List Val) : getCell fo (reindexRow fo fo b) c = getCell fo b c := by
  rw [getCell_reindexRow _ _ _ h, if_pos (List.elem_eq_true_of_mem h)]

lemma termCell_reindex_self {fo : List String} (hterm : "Application Term" ∈ fo)
    (b : List Val) : termCell fo (reindexRow fo fo b) = termCell fo b :=
  getCell_reindex_self hterm b

/-- Unfolding of `add_subtotals_and_grandtotal` on a non-empty table whose
final order contains the term column and every present aggregation column. -/
lemma addSub_run (pivotDf : DataFrame) (subCols fo : List String)
    (h1 : pivotDf.rows ≠ []) (h1c : pivotDf.cols ≠ [])
    (hterm : "Application Term" ∈ fo)
    (hall : ∀ c ∈ aggColsOf subCols pivotDf.cols, c ∈ fo) :
    add_subtotals_and_grandtotal pivotDf subCols fo =
      some (reindexTo
        ⟨fo,
          if !((reindexTo ⟨pivotDf.cols, sortPhaseRows pivotDf⟩ fo).rows.any
                (fun r => termCell fo r == Val.str "Grand Total"))
              && !(aggColsOf subCols pivotDf.cols).isEmpty then
            groupedBody fo (aggColsOf subCols pivotDf.cols)
                (reindexTo ⟨pivotDf.cols, sortPhaseRows pivotDf⟩ fo).rows ++
              [grandTotalRow fo (aggColsOf subCols pivotDf.cols)
                (reindexTo ⟨pivotDf.cols, sortPhaseRows pivotDf⟩ fo).rows]
          else
            groupedBody fo (aggColsOf subCols pivotDf.cols)
              (reindexTo ⟨pivotDf.cols, sortPhaseRows pivotDf⟩ fo).rows⟩ fo) := by
  have hne : isEmptyDf pivotDf = false := by
    simp [isEmptyDf, List.isEmpty_iff, h1, h1c]
  have hguard : (fo.contains "Application Term" &&
      (aggColsOf subCols pivotDf.cols).all (fun c => fo.contains c)) = true := by
    rw [Bool.and_eq_true]
    refine ⟨List.elem_eq_true_of_mem hterm, ?_⟩
    rw [List.all_eq_true]
    intro c hc
    exact List.elem_eq_true_of_mem (hall c hc)
  have hsrows : sortPhaseRows pivotDf ≠ [] := by
    intro hc
    have hp := sortPhaseRows_perm pivotDf
    rw [hc] at hp
    exact h1 hp.nil_eq.symm
  have hprows : (reindexTo ⟨pivotDf.cols, sortPhaseRows pivotDf⟩ fo).rows ≠ [] := by
    show (sortPhaseRows pivotDf).map _ ≠ []
    simpa using hsrows
  have hbody : (groupedBody fo (aggColsOf subCols pivotDf.cols)
      (reindexTo ⟨pivotDf.cols, sortPhaseRows pivotDf⟩ fo).rows).isEmpty = false := by
    have := @groupedBody_ne_nil fo (aggColsOf subCols pivotDf.cols) _ hprows
    simpa [List.isEmpty_iff] using this
  simp only [add_subtotals_and_grandtotal]
  rw [if_neg (by simp [hne]), if_pos hguard, if_neg (by simp [hbody])]

/-! ## Claim C1 -/

/-- C1 (amended): for every non-empty pivoted table none of whose rows
already carries term `"Grand Total"` — with the aggregation columns present,
integer-valued, non-empty, and listed in the final order, as the pivot stage
guarantees — the output of `_add_subtotals_and_grandtotal` ends in exactly
one grand-total row: every other output row has a different term value, the
last row's term is `"Grand Total"`, its non-aggregated columns other than
the term column (in particular every other index column) are empty strings,
and each aggregated column holds the integer sum of that column over all
pre-subtotal data rows (subtotal rows are never included, so there is no
double counting).  When the input already contains rows with term
`"Grand Total"` they pass through unchanged instead and no new grand-total
row is added (see `C1_counterexample`). -/
theorem C1_grand_total (df : DataFrame) (subCols fo : List String)
    (hrows : df.rows ≠ []) (hcols : df.cols ≠ [])
    (hterm : "Application Term" ∈ fo)
    (hsub_df : ∀ c ∈ subCols, c ∈ df.cols)
    (hsub_fo : ∀ c ∈ subCols, c ∈ fo)
    (hsubne : subCols ≠ [])
    (htns : "Application Term" ∉ subCols)
    (hints : ∀ r ∈ df.rows, ∀ c ∈ subCols, ∃ n, getCell df.cols r c = Val.int n)
    (hnoGT : ∀ r ∈ df.rows,
      getCell df.cols r "Application Term" ≠ Val.str "Grand Total") :
    ∃ rest gt,
      add_subtotals_and_grandtotal df subCols fo = some ⟨fo, rest ++ [gt]⟩ ∧
      (∀ r ∈ rest, termCell fo r ≠ Val.str "Grand Total") ∧
      termCell fo gt = Val.str "Grand Total" ∧
      (∀ c ∈ fo, c ∉ subCols → c ≠ "Application Term" →
        getCell fo gt c = Val.str "") ∧
      (∀ c ∈ subCols, getCell fo gt c =
        Val.int ((df.rows.map (fun r => intOf (getCell df.cols r c))).sum)) := by
  have hnumsum : aggColsOf subCols df.cols = subCols :=
    List.filter_eq_self.mpr (fun c hc => List.elem_eq_true_of_mem (hsub_df c hc))
  have hrun := addSub_run df subCols fo hrows hcols hterm
    (by rw [hnumsum]; exact hsub_fo)
  have hSsub : ∀ r ∈ sortPhaseRows df, r ∈ df.rows :=
    fun r hr => (sortPhaseRows_perm df).mem_iff.mp hr
  have hterm_ri : ∀ r ∈ sortPhaseRows df,
      termCell fo (reindexRow df.cols fo r) ≠ Val.str "Grand Total" := by
    intro r hr
    unfold termCell
    rw [getCell_reindexRow _ _ _ hterm]
    split
    · exact hnoGT r (hSsub r hr)
    · simp
  have hprowsdef : (reindexTo ⟨df.cols, sortPhaseRows df⟩ fo).rows =
      (sortPhaseRows df).map (reindexRow df.cols fo) := rfl
  have hasGT : ((reindexTo ⟨df.cols, sortPhaseRows df⟩ fo).rows.any
      (fun r => termCell fo r == Val.str "Grand Total")) = false := by
    rw [hprowsdef, List.any_eq_false]
    intro x hx
    obtain ⟨r, hr, rfl⟩ := List.mem_map.mp hx
    simpa using hterm_ri r hr
  have hcond : (!((reindexTo ⟨df.cols, sortPhaseRows df⟩ fo).rows.any
        (fun r => termCell fo r == Val.str "Grand Total"))
      && !(aggColsOf subCols df.cols).isEmpty) = true := by
    rw [hasGT, hnumsum]
    simp [List.isEmpty_iff, hsubne]
  rw [if_pos hcond] at hrun
  rw [hnumsum] at hrun
  refine ⟨(groupedBody fo subCols
      ((sortPhaseRows df).map (reindexRow df.cols fo))).map (reindexRow fo fo),
    reindexRow fo fo (grandTotalRow fo subCols
      ((sortPhaseRows df).map (reindexRow df.cols fo))),
    ?_, ?_, ?_, ?_, ?_⟩
  · rw [hrun]
    simp [reindexTo, List.map_append]
  · intro r hr
    obtain ⟨b, hb, rfl⟩ := List.mem_map.mp hr
    rw [termCell_reindex_self hterm]
    obtain ⟨r0, hr0, heq⟩ := termCell_of_mem_groupedBody hterm hb
    rw [heq]
    obtain ⟨r1, hr1, rfl⟩ := List.mem_map.mp hr0
    exact hterm_ri r1 hr1
  · rw [termCell_reindex_self hterm, termCell_grandTotalRow _ _ hterm]
  · intro c hc hcsub hcterm
    rw [getCell_reindex_self hc]
    unfold grandTotalRow
    rw [getCell_map_self _ _ hc, if_neg hcterm,
      if_neg (fun h => hcsub (List.mem_of_elem_eq_true h))]
  · intro c hc
    have hcfo := hsub_fo c hc
    have hcterm : c ≠ "Application Term" := fun he => htns (he ▸ hc)
    rw [getCell_reindex_self hcfo]
    unfold grandTotalRow
    rw [getCell_map_self _ _ hcfo, if_neg hcterm,
      if_pos (List.elem_eq_true_of_mem hc), List.map_map]
    have hmc : (sortPhaseRows df).map ((fun r => getCell fo r c) ∘ reindexRow df.cols fo)
        = (sortPhaseRows df).map (fun r => getCell df.cols r c) :=
      List.map_congr_left (fun r _ => by
        simp only [Function.comp]
        rw [getCell_reindexRow _ _ _ hcfo,
          if_pos (List.elem_eq_true_of_mem (hsub_df c hc))])
    rw [hmc]
    have hintsS : ∀ v ∈ (sortPhaseRows df).map (fun r => getCell df.cols r c),
        ∃ n, v = Val.int n := by
      intro v hv
      obtain ⟨r, hr, rfl⟩ := List.mem_map.mp hv
      obtain ⟨n, hn⟩ := hints r (hSsub r hr) c hc
      exact ⟨n, hn⟩
    rw [sumVals_int hintsS]
    congr 1
    rw [List.map_map]
    have := ((sortPhaseRows_perm df).map
      (fun r => intOf (getCell df.cols r c))).sum_eq
    simpa [Function.comp] using this

/-- C1, counterexample to the claim as stated: a pivoted table that already
contains a row with term `"Grand Total"` (reachable, since the pivot stage
keys rows by term × program and Tableau extracts can carry literal
`"Grand Total"` rows).  The output's unique grand-total row is the input row
passed through unchanged: its `Program` column is `"B"`, not the empty
string, and its numeric column is 7, not the sum 1 of the pre-subtotal data
rows (nor 8, the sum counting the grand-total row itself). -/
theorem C1_counterexample :
    add_subtotals_and_grandtotal
        ⟨["Application Term", "Program", "N"],
         [[Val.str "FALL 2025", Val.str "A", Val.int 1],
          [Val.str "Grand Total", Val.str "B", Val.int 7]]⟩
        ["N"] ["Application Term", "Program", "N"] =
      some ⟨["Application Term", "Program", "N"],
        [[Val.str "FALL 2025", Val.str "A", Val.int 1],
         [Val.str "FALL 2025", Val.str "Total", Val.int 1],
         [Val.str "Grand Total", Val.str "B", Val.int 7]]⟩ ∧
    getCell ["Application Term", "Program", "N"]
        [Val.str "Grand Total", Val.str "B", Val.int 7] "Program" ≠ Val.str "" ∧
    getCell ["Application Term", "Program", "N"]
        [Val.str "Grand Total", Val.str "B", Val.int 7] "N" ≠ Val.int 1 := by
  refine ⟨by decide, by decide, by decide⟩

/-- C1 witness: the amended theorem applied to a concrete one-row table. -/
theorem C1_witness :
    ∃ rest gt,
      add_subtotals_and_grandtotal
          ⟨["Application Term", "Program", "N"],
           [[Val.str "FALL 2025", Val.str "A", Val.int 2]]⟩
          ["N"] ["Application Term", "Program", "N"] =
        some ⟨["Application Term", "Program", "N"], rest ++ [gt]⟩ ∧
      (∀ r ∈ rest,
        termCell ["Application Term", "Program", "N"] r ≠ Val.str "Grand Total") ∧
      termCell ["Application Term", "Program", "N"] gt = Val.str "Grand Total" ∧
      (∀ c ∈ ["Application Term", "Program", "N"], c ∉ ["N"] →
        c ≠ "Application Term" →
        getCell ["Application Term", "Program", "N"] gt c = Val.str "") ∧
      (∀ c ∈ ["N"], getCell ["Application Term", "Program", "N"] gt c =
        Val.int (([[Val.str "FALL 2025", Val.str "A", Val.int 2]].map
          (fun r => intOf (getCell ["Application Term", "Program", "N"] r c))).sum)) :=
  C1_grand_total
    ⟨["Application Term", "Program", "N"],
     [[Val.str "FALL 2025", Val.str "A", Val.int 2]]⟩
    ["N"] ["Application Term", "Program", "N"]
    (by decide) (by decide) (by decide) (by decide) (by decide) (by decide)
    (by decide)
    (by
      intro r hr c hc
      rw [List.mem_singleton] at hr
      rw [List.mem_singleton] at hc
      subst hr; subst hc
      exact ⟨2, rfl⟩)
    (by
      intro r hr
      rw [List.mem_singleton] at hr
      subst hr
      decide)

/-! ## Claim C2 -/

/-- C2: in the output of `_add_subtotals_and_grandtotal` on a non-empty
pivoted table (term column and aggregation columns present and listed in the
final order, aggregation cells integers, term and `Program` not aggregation
columns — all guaranteed by the pivot stage and the report configurations),
every term value `k` other than `"Grand Total"` appears as one contiguous
block: the term's data rows, immediately followed by exactly one subtotal
row, with no other row of the output carrying that term.  The subtotal row
carries the literal term value in the term column, the literal `"Total"` in
the `Program` column, the empty string in every other non-aggregated column
(in particular the other index columns), and in each aggregation column the
integer sum over that term's data rows only. -/
theorem C2_subtotal_rows (df : DataFrame) (subCols fo : List String) (k : Val)
    (hrows : df.rows ≠ []) (hcols : df.cols ≠ [])
    (hterm : "Application Term" ∈ fo)
    (hterm_df : "Application Term" ∈ df.cols)
    (hprog : "Program" ∈ fo)
    (hsub_df : ∀ c ∈ subCols, c ∈ df.cols)
    (hsub_fo : ∀ c ∈ subCols, c ∈ fo)
    (htns : "Application Term" ∉ subCols)
    (hpns : "Program" ∉ subCols)
    (hints : ∀ r ∈ df.rows, ∀ c ∈ subCols, ∃ n, getCell df.cols r c = Val.int n)
    (hkgt : k ≠ Val.str "Grand Total")
    (hkmem : k ∈ df.rows.map (fun r => getCell df.cols r "Application Term")) :
    ∃ o P G sr Q,
      add_subtotals_and_grandtotal df subCols fo = some o ∧
      o.rows = P ++ G ++ [sr] ++ Q ∧
      G ≠ [] ∧
      (∀ r ∈ G, termCell fo r = k) ∧
      (∀ r ∈ P, termCell fo r ≠ k) ∧
      (∀ r ∈ Q, termCell fo r ≠ k) ∧
      termCell fo sr = k ∧
      getCell fo sr "Program" = Val.str "Total" ∧
      (∀ c ∈ fo, c ∉ subCols → c ≠ "Application Term" → c ≠ "Program" →
        getCell fo sr c = Val.str "") ∧
      (∀ c ∈ subCols, getCell fo sr c =
        Val.int (((df.rows.filter
            (fun r => getCell df.cols r "Application Term" == k)).map
          (fun r => intOf (getCell df.cols r c))).sum)) := by
  have hnumsum : aggColsOf subCols df.cols = subCols :=
    List.filter_eq_self.mpr (fun c hc => List.elem_eq_true_of_mem (hsub_df c hc))
  have hrun := addSub_run df subCols fo hrows hcols hterm
    (by rw [hnumsum]; exact hsub_fo)
  rw [hnumsum] at hrun
  have hSsub : ∀ r ∈ sortPhaseRows df, r ∈ df.rows :=
    fun r hr => (sortPhaseRows_perm df).mem_iff.mp hr
  have hterm_p : ∀ r, termCell fo (reindexRow df.cols fo r) =
      getCell df.cols r "Application Term" := by
    intro r
    unfold termCell
    rw [getCell_reindexRow _ _ _ hterm, if_pos (List.elem_eq_true_of_mem hterm_df)]
  have hprowsdef : (reindexTo ⟨df.cols, sortPhaseRows df⟩ fo).rows =
      (sortPhaseRows df).map (reindexRow df.cols fo) := rfl
  have hmapterm : (reindexTo ⟨df.cols, sortPhaseRows df⟩ fo).rows.map (termCell fo)
      = (sortPhaseRows df).map (fun r => getCell df.cols r "Application Term") := by
    rw [hprowsdef, List.map_map]
    exact List.map_congr_left (fun r _ => hterm_p r)
  have hkkeys : k ∈ dedupFirst
      ((reindexTo ⟨df.cols, sortPhaseRows df⟩ fo).rows.map (termCell fo)) := by
    rw [mem_dedupFirst, hmapterm]
    exact ((sortPhaseRows_perm df).map
      (fun r => getCell df.cols r "Application Term")).mem_iff.mpr hkmem
  obtain ⟨P0, Q0, hsplit, hP0, hQ0⟩ := @groupedBody_split fo subCols _ _
    hterm hkkeys hkgt
  have hform : ∃ T, (∀ r ∈ T, termCell fo r = Val.str "Grand Total") ∧
      add_subtotals_and_grandtotal df subCols fo =
        some (reindexTo ⟨fo, groupedBody fo subCols
          (reindexTo ⟨df.cols, sortPhaseRows df⟩ fo).rows ++ T⟩ fo) := by
    cases hcond : (!((reindexTo ⟨df.cols, sortPhaseRows df⟩ fo).rows.any
        (fun r => termCell fo r == Val.str "Grand Total")) && !subCols.isEmpty) with
    | false =>
      refine ⟨[], by simp, ?_⟩
      rw [hrun, hcond]
      simp
    | true =>
      refine ⟨[grandTotalRow fo subCols
        (reindexTo ⟨df.cols, sortPhaseRows df⟩ fo).rows], ?_, ?_⟩
      · intro r hr
        rw [List.mem_singleton] at hr
        subst hr
        exact termCell_grandTotalRow _ _ hterm
      · rw [hrun, hcond]
        simp
  obtain ⟨T, hT, heq⟩ := hform
  set grp := (reindexTo ⟨df.cols, sortPhaseRows df⟩ fo).rows.filter
    (fun r => termCell fo r == k) with hgrp
  refine ⟨_, P0.map (reindexRow fo fo), grp.map (reindexRow fo fo),
    reindexRow fo fo (subtotalRow fo subCols k grp),
    Q0.map (reindexRow fo fo) ++ T.map (reindexRow fo fo), heq, ?_, ?_, ?_, ?_, ?_,
    ?_, ?_, ?_, ?_⟩
  · show (groupedBody fo subCols _ ++ T).map (reindexRow fo fo) = _
    rw [hsplit]
    simp [List.map_append]
  · have : ∃ r ∈ (reindexTo ⟨df.cols, sortPhaseRows df⟩ fo).rows,
        termCell fo r = k := by
      obtain ⟨r, hr, hrk⟩ := List.mem_map.mp
        (mem_dedupFirst.mp hkkeys)
      exact ⟨r, hr, hrk⟩
    obtain ⟨r, hr, hrk⟩ := this
    have : r ∈ grp := List.mem_filter.mpr ⟨hr, beq_iff_eq.mpr hrk⟩
    simp only [ne_eq, List.map_eq_nil_iff]
    exact fun hc => List.ne_nil_of_mem this hc
  · intro r hr
    obtain ⟨g, hg, rfl⟩ := List.mem_map.mp hr
    rw [termCell_reindex_self hterm]
    exact eq_of_beq (List.mem_filter.mp hg).2
  · intro r hr
    obtain ⟨g, hg, rfl⟩ := List.mem_map.mp hr
    rw [termCell_reindex_self hterm]
    exact hP0 g hg
  · intro r hr
    rcases List.mem_append.mp hr with hr' | hr'
    · obtain ⟨g, hg, rfl⟩ := List.mem_map.mp hr'
      rw [termCell_reindex_self hterm]
      exact hQ0 g hg
    · obtain ⟨g, hg, rfl⟩ := List.mem_map.mp hr'
      rw [termCell_reindex_self hterm, hT g hg]
      exact fun he => hkgt he.symm
  · rw [termCell_reindex_self hterm]
    exact termCell_subtotalRow _ _ _ hterm
  · rw [getCell_reindex_self hprog]
    unfold subtotalRow
    rw [getCell_map_self _ _ hprog, if_neg (by decide), if_pos rfl]
  · intro c hc hcsub hcterm hcprog
    rw [getCell_reindex_self hc]
    unfold subtotalRow
    rw [getCell_map_self _ _ hc, if_neg hcterm, if_neg hcprog,
      if_neg (fun h => hcsub (List.mem_of_elem_eq_true h))]
  · intro c hc
    have hcfo := hsub_fo c hc
    have hcterm : c ≠ "Application Term" := fun he => htns (he ▸ hc)
    have hcprog : c ≠ "Program" := fun he => hpns (he ▸ hc)
    rw [getCell_reindex_self hcfo]
    unfold subtotalRow
    rw [getCell_map_self _ _ hcfo, if_neg hcterm, if_neg hcprog,
      if_pos (List.elem_eq_true_of_mem hc)]
    have hgrp2 : grp = ((sortPhaseRows df).filter
        (fun r => getCell df.cols r "Application Term" == k)).map
          (reindexRow df.cols fo) := by
      rw [hgrp, hprowsdef, filter_map_comm]
      congr 1
      exact List.filter_congr (fun r _ => by rw [hterm_p r])
    rw [hgrp2, List.map_map]
    have hmc : ((sortPhaseRows df).filter
          (fun r => getCell df.cols r "Application Term" == k)).map
          ((fun r => getCell fo r c) ∘ reindexRow df.cols fo)
        = ((sortPhaseRows df).filter
          (fun r => getCell df.cols r "Application Term" == k)).map
          (fun r => getCell df.cols r c) :=
      List.map_congr_left (fun r _ => by
        simp only [Function.comp]
        rw [getCell_reindexRow _ _ _ hcfo,
          if_pos (List.elem_eq_true_of_mem (hsub_df c hc))])
    rw [hmc]
    have hintsS : ∀ v ∈ ((sortPhaseRows df).filter
        (fun r => getCell df.cols r "Application Term" == k)).map
        (fun r => getCell df.cols r c), ∃ n, v = Val.int n := by
      intro v hv
      obtain ⟨r, hr, rfl⟩ := List.mem_map.mp hv
      obtain ⟨n, hn⟩ := hints r (hSsub r (List.mem_of_mem_filter hr)) c hc
      exact ⟨n, hn⟩
    rw [sumVals_int hintsS]
    congr 1
    rw [List.map_map]
    have := (((sortPhaseRows_perm df).filter
      (fun r => getCell df.cols r "Application Term" == k)).map
      (fun r => intOf (getCell df.cols r c))).sum_eq
    simpa [Function.comp] using this

/-- C2 witness: the theorem applied to a concrete two-row table sharing one
term. -/
theorem C2_witness :
    ∃ o P G sr Q,
      add_subtotals_and_grandtotal
          ⟨["Application Term", "Program", "N"],
           [[Val.str "FALL 2025", Val.str "A", Val.int 1],
            [Val.str "FALL 2025", Val.str "B", Val.int 2]]⟩
          ["N"] ["Application Term", "Program", "N"] = some o ∧
      o.rows = P ++ G ++ [sr] ++ Q ∧
      G ≠ [] ∧
      (∀ r ∈ G, termCell ["Application Term", "Program", "N"] r =
        Val.str "FALL 2025") ∧
      (∀ r ∈ P, termCell ["Application Term", "Program", "N"] r ≠
        Val.str "FALL 2025") ∧
      (∀ r ∈ Q, termCell ["Application Term", "Program", "N"] r ≠
        Val.str "FALL 2025") ∧
      termCell ["Application Term", "Program", "N"] sr = Val.str "FALL 2025" ∧
      getCell ["Application Term", "Program", "N"] sr "Program" =
        Val.str "Total" ∧
      (∀ c ∈ ["Application Term", "Program", "N"], c ∉ ["N"] →
        c ≠ "Application Term" → c ≠ "Program" →
        getCell ["Application Term", "Program", "N"] sr c = Val.str "") ∧
      (∀ c ∈ ["N"], getCell ["Application Term", "Program", "N"] sr c =
        Val.int ((([[Val.str "FALL 2025", Val.str "A", Val.int 1],
            [Val.str "FALL 2025", Val.str "B", Val.int 2]].filter
            (fun r => getCell ["Application Term", "Program", "N"] r
              "Application Term" == Val.str "FALL 2025")).map
          (fun r => intOf (getCell ["Application Term", "Program", "N"] r c))).sum)) :=
  C2_subtotal_rows
    ⟨["Application Term", "Program", "N"],
     [[Val.str "FALL 2025", Val.str "A", Val.int 1],
      [Val.str "FALL 2025", Val.str "B", Val.int 2]]⟩
    ["N"] ["Application Term", "Program", "N"] (Val.str "FALL 2025")
    (by decide) (by decide) (by decide) (by decide) (by decide) (by decide)
    (by decide) (by decide) (by decide)
    (by
      intro r hr c hc
      rw [List.mem_singleton] at hc
      subst hc
      rcases List.mem_cons.mp hr with rfl | hr'
      · exact ⟨1, rfl⟩
      · rw [List.mem_singleton] at hr'
        subst hr'
        exact ⟨2, rfl⟩)
    (by decide) (by decide)

/-! ## Claim C3 -/

lemma intLtB_irrefl (a : Option Int) : intLtB a a = false := by
  cases a <;> simp [intLtB]

lemma intLtB_asymm {a b : Option Int} (h : intLtB a b = true) :
    intLtB b a = false := by
  cases a <;> cases b <;> simp [intLtB] at h ⊢ <;> omega

lemma intLtB_eq_of_not {a b : Option Int} (h1 : intLtB a b = false)
    (h2 : intLtB b a = false) : a = b := by
  cases a <;> cases b <;> simp [intLtB] at h1 h2 ⊢ <;> omega

lemma intLtB_trans {a b c : Option Int} (h1 : intLtB a b = true)
    (h2 : intLtB b c = true) : intLtB a c = true := by
  cases a <;> cases b <;> cases c <;> simp [intLtB] at h1 h2 ⊢ <;> omega

lemma natLtB_irrefl (a : Option Nat) : natLtB a a = false := by
  cases a <;> simp [natLtB]

lemma natLtB_asymm {a b : Option Nat} (h : natLtB a b = true) :
    natLtB b a = false := by
  cases a <;> cases b <;> simp [natLtB] at h ⊢ <;> omega

lemma natLtB_eq_of_not {a b : Option Nat} (h1 : natLtB a b = false)
    (h2 : natLtB b a = false) : a = b := by
  cases a <;> cases b <;> simp [natLtB] at h1 h2 ⊢ <;> omega

lemma natLtB_trans {a b c : Option Nat} (h1 : natLtB a b = true)
    (h2 : natLtB b c = true) : natLtB a c = true := by
  cases a <;> cases b <;> cases c <;> simp [natLtB] at h1 h2 ⊢ <;> omega

lemma leChars_refl : ∀ l : List Char, leChars l l = true := by
  intro l
  induction l with
  | nil => rfl
  | cons a as ih => simp [leChars, ih]

lemma leChars_total : ∀ l₁ l₂ : List Char,
    leChars l₁ l₂ = true ∨ leChars l₂ l₁ = true := by
  intro l₁
  induction l₁ with
  | nil => intro l₂; left; rfl
  | cons a as ih =>
    intro l₂
    cases l₂ with
    | nil => right; rfl
    | cons b bs =>
      rcases Nat.lt_trichotomy a.toNat b.toNat with h | h | h
      · left; simp [leChars, h]
      · rcases ih bs with h' | h'
        · left; simp [leChars, h, h']
        · right; simp [leChars, h.symm, h']
      · right; simp [leChars, h]

lemma leChars_trans : ∀ l₁ l₂ l₃ : List Char, leChars l₁ l₂ = true →
    leChars l₂ l₃ = true → leChars l₁ l₃ = true := by
  intro l₁
  induction l₁ with
  | nil => intro l₂ l₃ _ _; rfl
  | cons a as ih =>
    intro l₂ l₃ h1 h2
    cases l₂ with
    | nil => simp [leChars] at h1
    | cons b bs =>
      cases l₃ with
      | nil => simp [leChars] at h2
      | cons c cs =>
        simp only [leChars] at h1 h2 ⊢
        rcases Nat.lt_trichotomy a.toNat b.toNat with hab | hab | hab
        · rcases Nat.lt_trichotomy b.toNat c.toNat with hbc | hbc | hbc
          · rw [if_pos (by omega)]
          · rw [if_pos (by omega)]
          · rw [if_neg (by omega), if_pos hbc] at h2
            exact absurd h2 (by simp)
        · rw [if_neg (by omega), if_neg (by omega)] at h1
          rcases Nat.lt_trichotomy b.toNat c.toNat with hbc | hbc | hbc
          · rw [if_pos (by omega)]
          · rw [if_neg (by omega), if_neg (by omega)] at h2
            rw [if_neg (by omega), if_neg (by omega)]
            exact ih bs cs h1 h2
          · rw [if_neg (by omega), if_pos hbc] at h2
            exact absurd h2 (by simp)
        · rw [if_neg (by omega), if_pos hab] at h1
          exact absurd h1 (by simp)

lemma leChars_antisymm : ∀ l₁ l₂ : List Char, leChars l₁ l₂ = true →
    leChars l₂ l₁ = true → l₁ = l₂ := by
  intro l₁
  induction l₁ with
  | nil =>
    intro l₂ _ h2
    cases l₂ with
    | nil => rfl
    | cons b bs => simp [leChars] at h2
  | cons a as ih =>
    intro l₂ h1 h2
    cases l₂ with
    | nil => simp [leChars] at h1
    | cons b bs =>
      simp only [leChars] at h1 h2
      rcases Nat.lt_trichotomy a.toNat b.toNat with hab | hab | hab
      · rw [if_neg (by omega), if_pos hab] at h2
        exact absurd h2 (by simp)
      · rw [if_neg (by omega), if_neg (by omega)] at h1 h2
        have : a = b := Char.ext (UInt32.ext hab)
        rw [this, ih bs h1 h2]
      · rw [if_neg (by omega), if_pos hab] at h1
        exact absurd h1 (by simp)

lemma string_eq_of_data_eq {s t : String} (h : s.data = t.data) : s = t := by
  cases s
  cases t
  exact congrArg String.mk h

lemma leStr_refl (s : String) : leStr s s = true := leChars_refl _

lemma leStr_total (s t : String) : leStr s t = true ∨ leStr t s = true :=
  leChars_total _ _

lemma leStr_trans {s t u : String} (h1 : leStr s t = true)
    (h2 : leStr t u = true) : leStr s u = true :=
  leChars_trans _ _ _ h1 h2

lemma leStr_antisymm {s t : String} (h1 : leStr s t = true)
    (h2 : leStr t s = true) : s = t :=
  string_eq_of_data_eq (leChars_antisymm _ _ h1 h2)

section LexLeLemmas

variable {α β : Type _} {ltA : α → α → Bool} {leB : β → β → Bool}

lemma lexLe_intro_lt {p q : α × β} (h : ltA p.1 q.1 = true) :
    lexLe ltA leB p q = true := by
  simp [lexLe, h]

lemma lexLe_intro_rest {p q : α × β} (h1 : ltA p.1 q.1 = false)
    (h2 : ltA q.1 p.1 = false) (h3 : leB p.2 q.2 = true) :
    lexLe ltA leB p q = true := by
  simp [lexLe, h1, h2, h3]

lemma lexLe_cases {p q : α × β} (h : lexLe ltA leB p q = true) :
    ltA p.1 q.1 = true ∨
      (ltA p.1 q.1 = false ∧ ltA q.1 p.1 = false ∧ leB p.2 q.2 = true) := by
  cases h1 : ltA p.1 q.1
  · cases h2 : ltA q.1 p.1
    · right
      refine ⟨rfl, rfl, ?_⟩
      simpa [lexLe, h1, h2] using h
    · exfalso
      simp [lexLe, h1, h2] at h
  · exact Or.inl rfl

lemma lexLe_total (hB : ∀ b₁ b₂, leB b₁ b₂ = true ∨ leB b₂ b₁ = true)
    (p q : α × β) : lexLe ltA leB p q = true ∨ lexLe ltA leB q p = true := by
  cases h1 : ltA p.1 q.1
  · cases h2 : ltA q.1 p.1
    · rcases hB p.2 q.2 with h | h
      · exact Or.inl (lexLe_intro_rest h1 h2 h)
      · exact Or.inr (lexLe_intro_rest h2 h1 h)
    · exact Or.inr (lexLe_intro_lt h2)
  · exact Or.inl (lexLe_intro_lt h1)

lemma lexLe_trans
    (hA_trans : ∀ a b c, ltA a b = true → ltA b c = true → ltA a c = true)
    (hA_eq : ∀ a b, ltA a b = false → ltA b a = false → a = b)
    (hB_trans : ∀ b₁ b₂ b₃, leB b₁ b₂ = true → leB b₂ b₃ = true → leB b₁ b₃ = true)
    {p q r : α × β} (h1 : lexLe ltA leB p q = true)
    (h2 : lexLe ltA leB q r = true) : lexLe ltA leB p r = true := by
  rcases lexLe_cases h1 with hlt1 | ⟨hf1, hg1, hb1⟩
  · rcases lexLe_cases h2 with hlt2 | ⟨hf2, hg2, _⟩
    · exact lexLe_intro_lt (hA_trans _ _ _ hlt1 hlt2)
    · have hqr : q.1 = r.1 := hA_eq _ _ hf2 hg2
      exact lexLe_intro_lt (hqr ▸ hlt1)
  · have hpq : p.1 = q.1 := hA_eq _ _ hf1 hg1
    rcases lexLe_cases h2 with hlt2 | ⟨hf2, hg2, hb2⟩
    · exact lexLe_intro_lt (by rw [hpq]; exact hlt2)
    · refine lexLe_intro_rest (by rw [hpq]; exact hf2) (by rw [hpq]; exact hg2)
        (hB_trans _ _ _ hb1 hb2)

lemma lexLe_antisymm
    (hA_asymm : ∀ a b, ltA a b = true → ltA b a = false)
    (hA_eq : ∀ a b, ltA a b = false → ltA b a = false → a = b)
    (hB_antisymm : ∀ b₁ b₂, leB b₁ b₂ = true → leB b₂ b₁ = true → b₁ = b₂)
    {p q : α × β} (h1 : lexLe ltA leB p q = true)
    (h2 : lexLe ltA leB q p = true) : p = q := by
  rcases lexLe_cases h1 with hlt1 | ⟨hf1, hg1, hb1⟩
  · rcases lexLe_cases h2 with hlt2 | ⟨hf2, hg2, _⟩
    · exact absurd hlt2 (by rw [hA_asymm _ _ hlt1]; simp)
    · exact absurd hlt1 (by rw [hg2]; simp)
  · rcases lexLe_cases h2 with hlt2 | ⟨_, _, hb2⟩
    · exact absurd hlt2 (by rw [hg1]; simp)
    · have h₁ : p.1 = q.1 := hA_eq _ _ hf1 hg1
      have h₂ : p.2 = q.2 := hB_antisymm _ _ hb1 hb2
      exact Prod.ext h₁ h₂

lemma lexLe_refl (hA_irrefl : ∀ a, ltA a a = false)
    (hB_refl : ∀ b, leB b b = true) (p : α × β) :
    lexLe ltA leB p p = true :=
  lexLe_intro_rest (hA_irrefl _) (hA_irrefl _) (hB_refl _)

end LexLeLemmas

/-- The inner comparator (rank, then program string). -/
lemma innerLe_total (b₁ b₂ : Option Nat × String) :
    lexLe natLtB leStr b₁ b₂ = true ∨ lexLe natLtB leStr b₂ b₁ = true :=
  lexLe_total leStr_total b₁ b₂

lemma innerLe_trans {b₁ b₂ b₃ : Option Nat × String}
    (h1 : lexLe natLtB leStr b₁ b₂ = true) (h2 : lexLe natLtB leStr b₂ b₃ = true) :
    lexLe natLtB leStr b₁ b₃ = true :=
  @lexLe_trans _ _ natLtB leStr (fun _ _ _ ha hb => natLtB_trans ha hb)
    (fun _ _ ha hb => natLtB_eq_of_not ha hb)
    (fun _ _ _ ha hb => leStr_trans ha hb) _ _ _ h1 h2

lemma innerLe_antisymm {b₁ b₂ : Option Nat × String}
    (h1 : lexLe natLtB leStr b₁ b₂ = true) (h2 : lexLe natLtB leStr b₂ b₁ = true) :
    b₁ = b₂ :=
  @lexLe_antisymm _ _ natLtB leStr (fun _ _ ha => natLtB_asymm ha)
    (fun _ _ ha hb => natLtB_eq_of_not ha hb)
    (fun _ _ ha hb => leStr_antisymm ha hb) _ _ h1 h2

lemma innerLe_refl (b : Option Nat × String) : lexLe natLtB leStr b b = true :=
  lexLe_refl natLtB_irrefl leStr_refl b

lemma rowLeB_total (cols : List String) (r₁ r₂ : List Val) :
    rowLeB cols r₁ r₂ = true ∨ rowLeB cols r₂ r₁ = true :=
  lexLe_total innerLe_total _ _

lemma rowLeB_trans {cols : List String} {r₁ r₂ r₃ : List Val}
    (h1 : rowLeB cols r₁ r₂ = true) (h2 : rowLeB cols r₂ r₃ = true) :
    rowLeB cols r₁ r₃ = true :=
  @lexLe_trans _ _ intLtB (lexLe natLtB leStr)
    (fun _ _ _ ha hb => intLtB_trans ha hb)
    (fun _ _ ha hb => intLtB_eq_of_not ha hb)
    (fun _ _ _ ha hb => innerLe_trans ha hb) _ _ _ h1 h2

lemma rowLeB_key_eq {cols : List String} {r₁ r₂ : List Val}
    (h1 : rowLeB cols r₁ r₂ = true) (h2 : rowLeB cols r₂ r₁ = true) :
    rowSortKey cols r₁ = rowSortKey cols r₂ :=
  @lexLe_antisymm _ _ intLtB (lexLe natLtB leStr)
    (fun _ _ ha => intLtB_asymm ha)
    (fun _ _ ha hb => intLtB_eq_of_not ha hb)
    (fun _ _ ha hb => innerLe_antisymm ha hb) _ _ h1 h2

lemma rowLeB_of_key_eq {cols : List String} {r₁ r₂ : List Val}
    (h : rowSortKey cols r₁ = rowSortKey cols r₂) : rowLeB cols r₁ r₂ = true := by
  unfold rowLeB
  rw [h]
  exact lexLe_refl intLtB_irrefl innerLe_refl _

instance (cols : List String) : IsTotal (List Val) (sortRel cols) :=
  ⟨fun a b => rowLeB_total cols a b⟩

instance (cols : List String) : IsTrans (List Val) (sortRel cols) :=
  ⟨fun _ _ _ h₁ h₂ => rowLeB_trans h₁ h₂⟩

/-! ## Claim C4 -/

/-- C4 (amended): on any table with an `Application Term` column the sort
step orders the rows by the per-row key `(year, termRank, Program-if-present)`
— the output is a permutation of the input, pairwise ordered by the key
comparison — and the sort is stable: rows with equal keys keep their
relative order (filtering either list to any one key value gives identical
lists).  `termRank` maps SPRING to 0, SUMMER to 1 and FALL to 2
(case-insensitively), blank and literal `"Grand Total"` terms map to
`(+inf, +inf)`, and — correcting the claim as stated — a term with an
unknown name keeps its parsed year and only its rank is `+inf`
(`"FOO 2025"` maps to `(2025, +inf)`, not `(+inf, +inf)`; see
`C4_counterexample`).  In particular the terms FALL 2025, SPRING 2026,
SUMMER 2025 come out in the order SUMMER 2025, FALL 2025, SPRING 2026. -/
theorem C4_term_sort (df : DataFrame)
    (hterm : "Application Term" ∈ df.cols) :
    (sortPhaseRows df).Perm df.rows ∧
    List.Pairwise (sortRel df.cols) (sortPhaseRows df) ∧
    (∀ K, (sortPhaseRows df).filter (fun r => rowSortKey df.cols r = K) =
      df.rows.filter (fun r => rowSortKey df.cols r = K)) ∧
    get_sort_keys "SPRING 2026" = (some 2026, some 0) ∧
    get_sort_keys "summer 2025" = (some 2025, some 1) ∧
    get_sort_keys "FALL 2025" = (some 2025, some 2) ∧
    get_sort_keys "" = (none, none) ∧
    get_sort_keys "Grand Total" = (none, none) ∧
    get_sort_keys "FOO 2025" = (some 2025, none) ∧
    sortPhaseRows ⟨["Application Term"],
        [[Val.str "FALL 2025"], [Val.str "SPRING 2026"], [Val.str "SUMMER 2025"]]⟩ =
      [[Val.str "SUMMER 2025"], [Val.str "FALL 2025"], [Val.str "SPRING 2026"]] := by
  have hbranch : sortPhaseRows df =
      List.insertionSort (sortRel df.cols) df.rows := by
    unfold sortPhaseRows
    rw [if_pos]
    rw [Bool.or_eq_true]
    exact Or.inl (List.elem_eq_true_of_mem hterm)
  refine ⟨?_, ?_, ?_, by decide, by decide, by decide, by decide, by decide,
    by decide, by decide⟩
  · rw [hbranch]
    exact List.perm_insertionSort _ _
  · rw [hbranch]
    exact List.sorted_insertionSort _ _
  · intro K
    rw [hbranch]
    exact insertionSort_filter_key (sortRel df.cols) (rowSortKey df.cols)
      (fun _ _ h => rowLeB_of_key_eq h) df.rows K

/-- C4, counterexample to the claim as stated: `"FOO 2025"` is a term with
an unknown term name, yet the code's key keeps its parsed year,
`(2025, +inf)`, instead of the claimed `(+inf, +inf)` (the latter given by
`claimGetSortKeys`, the spec's wording).  Concretely, the code sorts the
unknown term `FOO 2020` *before* `SPRING 2030`, while under the claimed key
the `SPRING 2030` row (year 2030) must strictly precede the unknown-term row
(year +inf). -/
theorem C4_counterexample :
    get_sort_keys "FOO 2025" = (some 2025, none) ∧
    claimGetSortKeys "FOO 2025" = (none, none) ∧
    get_sort_keys "FOO 2025" ≠ claimGetSortKeys "FOO 2025" ∧
    sortPhaseRows ⟨["Application Term"],
        [[Val.str "FOO 2020"], [Val.str "SPRING 2030"]]⟩ =
      [[Val.str "FOO 2020"], [Val.str "SPRING 2030"]] ∧
    intLtB (claimGetSortKeys "SPRING 2030").1 (claimGetSortKeys "FOO 2020").1 =
      true := by
  refine ⟨by decide, by decide, by decide, by decide, by decide⟩

/-- C4 witness: the amended theorem applied to a concrete two-row table. -/
theorem C4_witness :
    (sortPhaseRows ⟨["Application Term"],
        [[Val.str "FALL 2025"], [Val.str "SUMMER 2025"]]⟩).Perm
      [[Val.str "FALL 2025"], [Val.str "SUMMER 2025"]] ∧
    List.Pairwise (sortRel ["Application Term"])
      (sortPhaseRows ⟨["Application Term"],
        [[Val.str "FALL 2025"], [Val.str "SUMMER 2025"]]⟩) ∧
    (∀ K, (sortPhaseRows ⟨["Application Term"],
        [[Val.str "FALL 2025"], [Val.str "SUMMER 2025"]]⟩).filter
          (fun r => rowSortKey ["Application Term"] r = K) =
      [[Val.str "FALL 2025"], [Val.str "SUMMER 2025"]].filter
          (fun r => rowSortKey ["Application Term"] r = K)) ∧
    get_sort_keys "SPRING 2026" = (some 2026, some 0) ∧
    get_sort_keys "summer 2025" = (some 2025, some 1) ∧
    get_sort_keys "FALL 2025" = (some 2025, some 2) ∧
    get_sort_keys "" = (none, none) ∧
    get_sort_keys "Grand Total" = (none, none) ∧
    get_sort_keys "FOO 2025" = (some 2025, none) ∧
    sortPhaseRows ⟨["Application Term"],
        [[Val.str "FALL 2025"], [Val.str "SPRING 2026"], [Val.str "SUMMER 2025"]]⟩ =
      [[Val.str "SUMMER 2025"], [Val.str "FALL 2025"], [Val.str "SPRING 2026"]] :=
  C4_term_sort
    ⟨["Application Term"], [[Val.str "FALL 2025"], [Val.str "SUMMER 2025"]]⟩
    (by decide)

/-! ## Claim C5 -/

/-- C5 (amended): every value the pivot stage leaves in a numeric column is
an *integer* — non-negativity is not enforced, the sign of the source value
is preserved (see `C5_counterexample`).  Thousands separators are stripped
before parsing (`"1,234"` becomes the integer 1234) and an unparsable value
such as `"N/A"` coerces to 0, also end-to-end through `_pivot_dataframe`
with the progress-report configuration. -/
theorem C5_numeric_integers (df : DataFrame) (indexCols : List String)
    (aggCol valCol : String) (fo nc : List String) (c : String)
    (hc : c ∈ nc) (hcfo : c ∈ fo) :
    (∀ r ∈ (pivot_dataframe df indexCols aggCol valCol fo nc).rows,
      ∃ n, getCell fo r c = Val.int n) ∧
    coerceCell (Val.str "1,234") = 1234 ∧
    coerceCell (Val.str "N/A") = 0 ∧
    getCell PROGRESS_REPORT_FINAL_COLUMN_ORDER
        ((pivot_dataframe ⟨["Application Term", "Submitted Applicants"],
            [[Val.str "FALL 2025", Val.str "1,234"]]⟩
          PROGRESS_REPORT_PIVOT_INDEX_COLUMNS PROGRESS_REPORT_PIVOT_AGG_COLUMN
          PROGRESS_REPORT_PIVOT_VALUES_COLUMN PROGRESS_REPORT_FINAL_COLUMN_ORDER
          PROGRESS_REPORT_NUMERIC_COLUMNS_FOR_INT_CONVERSION).rows.headD [])
        "Submitted Applicants" = Val.int 1234 ∧
    getCell PROGRESS_REPORT_FINAL_COLUMN_ORDER
        ((pivot_dataframe ⟨["Application Term", "Submitted Applicants"],
            [[Val.str "FALL 2025", Val.str "N/A"]]⟩
          PROGRESS_REPORT_PIVOT_INDEX_COLUMNS PROGRESS_REPORT_PIVOT_AGG_COLUMN
          PROGRESS_REPORT_PIVOT_VALUES_COLUMN PROGRESS_REPORT_FINAL_COLUMN_ORDER
          PROGRESS_REPORT_NUMERIC_COLUMNS_FOR_INT_CONVERSION).rows.headD [])
        "Submitted Applicants" = Val.int 0 := by
  refine ⟨?_, by decide, by decide, by decide, by decide⟩
  unfold pivot_dataframe
  split
  · intro r hr
    simp at hr
  · intro r hr
    obtain ⟨b, _, rfl⟩ := List.mem_map.mp hr
    rw [getCell_map_self _ _ hcfo, if_pos (List.elem_eq_true_of_mem hc)]
    exact ⟨_, rfl⟩

/-- C5, counterexample to the claim as stated: a negative source value stays
negative through the pivot stage's coercion, so "every value is a
non-negative integer" fails. -/
theorem C5_counterexample :
    getCell PROGRESS_REPORT_FINAL_COLUMN_ORDER
        ((pivot_dataframe ⟨["Application Term", "Submitted Applicants"],
            [[Val.str "FALL 2025", Val.str "-5"]]⟩
          PROGRESS_REPORT_PIVOT_INDEX_COLUMNS PROGRESS_REPORT_PIVOT_AGG_COLUMN
          PROGRESS_REPORT_PIVOT_VALUES_COLUMN PROGRESS_REPORT_FINAL_COLUMN_ORDER
          PROGRESS_REPORT_NUMERIC_COLUMNS_FOR_INT_CONVERSION).rows.headD [])
        "Submitted Applicants" = Val.int (-5) ∧
    ((-5 : Int) < 0) := by
  refine ⟨by decide, by decide⟩

/-- C5 witness: the amended theorem applied to a concrete numeric column. -/
theorem C5_witness :
    (∀ r ∈ (pivot_dataframe ⟨["Application Term", "Submitted Applicants"],
          [[Val.str "FALL 2025", Val.str "7"]]⟩
        PROGRESS_REPORT_PIVOT_INDEX_COLUMNS PROGRESS_REPORT_PIVOT_AGG_COLUMN
        PROGRESS_REPORT_PIVOT_VALUES_COLUMN PROGRESS_REPORT_FINAL_COLUMN_ORDER
        PROGRESS_REPORT_NUMERIC_COLUMNS_FOR_INT_CONVERSION).rows,
      ∃ n, getCell PROGRESS_REPORT_FINAL_COLUMN_ORDER r "Enrolled" = Val.int n) ∧
    coerceCell (Val.str "1,234") = 1234 ∧
    coerceCell (Val.str "N/A") = 0 ∧
    getCell PROGRESS_REPORT_FINAL_COLUMN_ORDER
        ((pivot_dataframe ⟨["Application Term", "Submitted Applicants"],
            [[Val.str "FALL 2025", Val.str "1,234"]]⟩
          PROGRESS_REPORT_PIVOT_INDEX_COLUMNS PROGRESS_REPORT_PIVOT_AGG_COLUMN
          PROGRESS_REPORT_PIVOT_VALUES_COLUMN PROGRESS_REPORT_FINAL_COLUMN_ORDER
          PROGRESS_REPORT_NUMERIC_COLUMNS_FOR_INT_CONVERSION).rows.headD [])
        "Submitted Applicants" = Val.int 1234 ∧
    getCell PROGRESS_REPORT_FINAL_COLUMN_ORDER
        ((pivot_dataframe ⟨["Application Term", "Submitted Applicants"],
            [[Val.str "FALL 2025", Val.str "N/A"]]⟩
          PROGRESS_REPORT_PIVOT_INDEX_COLUMNS PROGRESS_REPORT_PIVOT_AGG_COLUMN
          PROGRESS_REPORT_PIVOT_VALUES_COLUMN PROGRESS_REPORT_FINAL_COLUMN_ORDER
          PROGRESS_REPORT_NUMERIC_COLUMNS_FOR_INT_CONVERSION).rows.headD [])
        "Submitted Applicants" = Val.int 0 :=
  C5_numeric_integers
    ⟨["Application Term", "Submitted Applicants"],
     [[Val.str "FALL 2025", Val.str "7"]]⟩
    PROGRESS_REPORT_PIVOT_INDEX_COLUMNS PROGRESS_REPORT_PIVOT_AGG_COLUMN
    PROGRESS_REPORT_PIVOT_VALUES_COLUMN PROGRESS_REPORT_FINAL_COLUMN_ORDER
    PROGRESS_REPORT_NUMERIC_COLUMNS_FOR_INT_CONVERSION "Enrolled"
    (by decide) (by decide)

/-! ## Claim C6 -/

/-- C6: after the clean stage with a non-empty configured match string, no
surviving row has any cell whose trimmed, case-folded rendering equals the
case-folded, trimmed match string, and none of the configured drop columns
remains (dropping an absent column is a no-op, never an error: the function
is total and filters the drop list by membership first). -/
lemma clean_dataframe_some (df : DataFrame) (dropCols : List String)
    (s : String) (hs : s ≠ "") :
    clean_dataframe df dropCols (some s) =
      ⟨(dropColumns df dropCols).cols,
       (dropColumns df dropCols).rows.filter
         (fun r => ¬ rowMatchesString (pyStrip (pyLower s)) r)⟩ := by
  show (if s = "" then dropColumns df dropCols else _) = _
  rw [if_neg hs]

theorem C6_clean_no_match (df : DataFrame) (dropCols : List String)
    (s : String) (hs : s ≠ "") :
    (∀ r ∈ (clean_dataframe df dropCols (some s)).rows, ∀ v ∈ r,
      pyLower (pyStrip (cellToStr v)) ≠ pyStrip (pyLower s)) ∧
    (∀ c ∈ dropCols, c ∉ (clean_dataframe df dropCols (some s)).cols) := by
  rw [clean_dataframe_some df dropCols s hs]
  constructor
  · intro r hr v hv
    have h2 := (List.mem_filter.mp hr).2
    rw [decide_eq_true_eq] at h2
    intro hcon
    apply h2
    unfold rowMatchesString
    rw [List.any_eq_true]
    exact ⟨v, hv, by rw [decide_eq_true_eq]; exact hcon⟩
  · intro c hc hmem
    have hcols : (dropColumns df dropCols).cols =
        df.cols.filter (fun c => ¬ dropCols.contains c) := rfl
    rw [hcols] at hmem
    have := (List.mem_filter.mp hmem).2
    rw [decide_eq_true_eq] at this
    exact this (List.elem_eq_true_of_mem hc)

/-- C6 witness: the theorem applied to a concrete table containing an
`"  aLL "` cell (matching `"All"` after trimming and case-folding) and an
absent drop column. -/
theorem C6_witness :
    (∀ r ∈ (clean_dataframe
        ⟨["A", "B"], [[Val.str "  aLL ", Val.str "x"], [Val.str "keep", Val.str "y"]]⟩
        ["NotThere"] (some "All")).rows, ∀ v ∈ r,
      pyLower (pyStrip (cellToStr v)) ≠ pyStrip (pyLower "All")) ∧
    (∀ c ∈ ["NotThere"], c ∉ (clean_dataframe
        ⟨["A", "B"], [[Val.str "  aLL ", Val.str "x"], [Val.str "keep", Val.str "y"]]⟩
        ["NotThere"] (some "All")).cols) :=
  C6_clean_no_match
    ⟨["A", "B"], [[Val.str "  aLL ", Val.str "x"], [Val.str "keep", Val.str "y"]]⟩
    ["NotThere"] "All" (by decide)

/-! ## Claim C7 -/

/-- C7 (amended): the raw-data transform drops the configured columns that
are present and then selects-and-reorders to the listed columns that exist
in the source — any unlisted source column is dropped and any listed column
missing from the source is simply absent, with no error — *provided at
least one listed column is present*.  When none is, the source is returned
as-is after the drops, keeping its unlisted columns (see
`C7_counterexample`). -/
theorem C7_raw_data (df : DataFrame) :
    (RAW_DATA_FINAL_COLUMN_SELECTION_ORDER.filter
        (fun c => (dropColumns df RAW_DATA_DROP_COLUMNS).cols.contains c) ≠ [] →
      (process_raw_data_applicant_download df).cols =
        RAW_DATA_FINAL_COLUMN_SELECTION_ORDER.filter
          (fun c => (dropColumns df RAW_DATA_DROP_COLUMNS).cols.contains c) ∧
      ∀ c ∈ (process_raw_data_applicant_download df).cols,
        c ∈ RAW_DATA_FINAL_COLUMN_SELECTION_ORDER) ∧
    (RAW_DATA_FINAL_COLUMN_SELECTION_ORDER.filter
        (fun c => (dropColumns df RAW_DATA_DROP_COLUMNS).cols.contains c) = [] →
      process_raw_data_applicant_download df =
        dropColumns df RAW_DATA_DROP_COLUMNS) := by
  constructor
  · intro hne
    unfold process_raw_data_applicant_download
    rw [if_neg (by simpa [List.isEmpty_iff] using hne)]
    exact ⟨rfl, fun c hc => List.mem_of_mem_filter hc⟩
  · intro heq
    unfold process_raw_data_applicant_download
    rw [if_pos (by simpa [List.isEmpty_iff] using heq)]

/-- C7, counterexample to the claim as stated: a source with a single
unlisted column keeps it — the "select and reorder to exactly the fixed
column list" step is skipped entirely when no listed column is present, so
an unlisted column is *not* dropped from the output. -/
theorem C7_counterexample :
    process_raw_data_applicant_download ⟨["Foo"], [[Val.str "x"]]⟩ =
      ⟨["Foo"], [[Val.str "x"]]⟩ ∧
    "Foo" ∉ RAW_DATA_FINAL_COLUMN_SELECTION_ORDER := by
  refine ⟨by decide, by decide⟩

/-- C7 witness: the amended theorem applied to a table with one listed, one
unlisted, and one droppable column. -/
theorem C7_witness :
    (process_raw_data_applicant_download
        ⟨["Unlisted", "FIRST_NAME", "Blank"],
         [[Val.str "u", Val.str "Ada", Val.str ""]]⟩).cols =
      RAW_DATA_FINAL_COLUMN_SELECTION_ORDER.filter
        (fun c => (dropColumns
          ⟨["Unlisted", "FIRST_NAME", "Blank"],
           [[Val.str "u", Val.str "Ada", Val.str ""]]⟩
          RAW_DATA_DROP_COLUMNS).cols.contains c) ∧
    ∀ c ∈ (process_raw_data_applicant_download
        ⟨["Unlisted", "FIRST_NAME", "Blank"],
         [[Val.str "u", Val.str "Ada", Val.str ""]]⟩).cols,
      c ∈ RAW_DATA_FINAL_COLUMN_SELECTION_ORDER :=
  (C7_raw_data
    ⟨["Unlisted", "FIRST_NAME", "Blank"],
     [[Val.str "u", Val.str "Ada", Val.str ""]]⟩).1 (by decide)

/-! ## Claim C8 -/

/-- C8: a view whose fetch/parse/transform raises is replaced by the one-row
error table `{"Error": "<message>"}` written under the label `"ERROR_"`
followed by the (25-character-truncated) sheet name, and the surrounding
views are processed exactly as they would be on their own — a single view's
failure never aborts the loop. -/
theorem C8_error_sheet (f : ViewDetails → Except String DataFrame)
    (pre post : List ViewDetails) (v : ViewDetails) (i u e : String)
    (hid : v.id = some i) (hine : i ≠ "")
    (hurl : v.viewUrlName = some u) (hune : u ≠ "")
    (herr : f v = .error e) :
    generate_excel_sheets_from_views f (pre ++ v :: post) =
      generate_excel_sheets_from_views f pre ++
        [("ERROR_" ++ pyTake (lookupSheetName u) 25,
          errorDf (viewDisplayName v) e)] ++
      generate_excel_sheets_from_views f post ∧
    (errorDf (viewDisplayName v) e).cols = ["Error"] ∧
    (errorDf (viewDisplayName v) e).rows =
      [[Val.str ("Could not load/process data for view " ++ viewDisplayName v ++
        ": " ++ e)]] := by
  refine ⟨?_, rfl, rfl⟩
  unfold generate_excel_sheets_from_views
  rw [List.flatMap_append, List.flatMap_cons]
  have hval : sheetsForView f v = sheetsForViewValid f v i u := by
    unfold sheetsForView
    rw [hid, hurl]
  have hv : sheetsForViewValid f v i u =
      [("ERROR_" ++ pyTake (lookupSheetName u) 25, errorDf (viewDisplayName v) e)] := by
    unfold sheetsForViewValid
    rw [if_neg (by simp [hine, hune]), herr]
  rw [hval, hv]
  simp

/-- C8 witness: the theorem applied to a concrete failing view between two
valid views. -/
theorem C8_witness :
    generate_excel_sheets_from_views
        (fun v => if v.id = some "v-bad" then Except.error "boom"
          else Except.ok ⟨["X"], [[Val.int 1]]⟩)
        ([⟨some "v-ok", some "GoodView", some "Good"⟩] ++
          ⟨some "v-bad", some "BadView", some "Bad"⟩ ::
          [⟨some "v-ok2", some "OtherView", none⟩]) =
      generate_excel_sheets_from_views
        (fun v => if v.id = some "v-bad" then Except.error "boom"
          else Except.ok ⟨["X"], [[Val.int 1]]⟩)
        [⟨some "v-ok", some "GoodView", some "Good"⟩] ++
        [("ERROR_" ++ pyTake (lookupSheetName "BadView") 25,
          errorDf (viewDisplayName ⟨some "v-bad", some "BadView", some "Bad"⟩)
            "boom")] ++
      generate_excel_sheets_from_views
        (fun v => if v.id = some "v-bad" then Except.error "boom"
          else Except.ok ⟨["X"], [[Val.int 1]]⟩)
        [⟨some "v-ok2", some "OtherView", none⟩] ∧
    (errorDf (viewDisplayName ⟨some "v-bad", some "BadView", some "Bad"⟩)
      "boom").cols = ["Error"] ∧
    (errorDf (viewDisplayName ⟨some "v-bad", some "BadView", some "Bad"⟩)
      "boom").rows =
      [[Val.str ("Could not load/process data for view " ++
        viewDisplayName ⟨some "v-bad", some "BadView", some "Bad"⟩ ++
        ": " ++ "boom")]] :=
  C8_error_sheet _ _ _ ⟨some "v-bad", some "BadView", some "Bad"⟩
    "v-bad" "BadView" "boom" rfl (by decide) rfl (by decide) rfl

/-! ## Claim C9 -/

/-- C9 (amended): `sign_out` POSTs only when the stored auth token is truthy
— present and non-empty, matching the guard `if not self.auth_token:` — and
never raises (every outcome of the POST, including failure, is caught); with
a truthy token it always ends with all three session fields cleared, even
when the sign-out request fails.  With a missing *or empty* token it returns
immediately *without touching the state*: `site_id`/`user_id` are then left
as they were, which contradicts the claim's "always leaves all three
session fields cleared" for every client state (see `C9_counterexample`;
such states are reachable because `authenticate` assigns the token, site id
and user id from the response before validating them and the caller's
`finally` block invokes `sign_out` on the resulting state). -/
theorem C9_sign_out (s : TableauClientState) (r : Except String Unit) :
    (s.auth_token ≠ none → s.auth_token ≠ some "" →
      sign_out s r = (⟨none, none, none⟩, true)) ∧
    (s.auth_token = none ∨ s.auth_token = some "" →
      sign_out s r = (s, false)) := by
  constructor
  · intro h1 h2
    unfold sign_out
    rw [if_neg (by
      rintro (h | h)
      · exact h1 h
      · exact h2 h)]
    cases r <;> rfl
  · intro h
    unfold sign_out
    rw [if_pos h]

/-- C9, counterexample to the claim as stated: on a state with no auth token
but a stored site id and user id, `sign_out` returns without clearing
`site_id` and `user_id`; the same happens on a state whose token is the
empty string (falsy in Python), where additionally no POST is attempted. -/
theorem C9_counterexample :
    (sign_out ⟨none, some "site-id", some "user-id"⟩ (Except.ok ())).1.site_id =
      some "site-id" ∧
    (sign_out ⟨none, some "site-id", some "user-id"⟩ (Except.ok ())).1.user_id =
      some "user-id" ∧
    (sign_out ⟨some "", some "site-id", some "user-id"⟩ (Except.ok ())).1.site_id =
      some "site-id" ∧
    (sign_out ⟨some "", some "site-id", some "user-id"⟩ (Except.ok ())).2 =
      false ∧
    some "site-id" ≠ (none : Option String) := by
  refine ⟨by decide, by decide, by decide, by decide, by decide⟩

/-- C9 witness: the amended theorem applied to a state with a truthy token
whose sign-out POST fails — the state is still fully cleared. -/
theorem C9_witness :
    sign_out ⟨some "token", some "site-id", some "user-id"⟩
        (Except.error "network down") =
      (⟨none, none, none⟩, true) :=
  (C9_sign_out ⟨some "token", some "site-id", some "user-id"⟩
    (Except.error "network down")).1 (by decide) (by decide)

/-! ## Claim C10 -/

/-- C10: a view descriptor whose `id` or `viewUrlName` is missing or empty
contributes no sheet of any kind — under *every* fetch/transform oracle, so
in particular no fetch for it can influence the output — and the remaining
views are processed exactly as if the invalid one were absent. -/
theorem C10_skip_invalid_views (f : ViewDetails → Except String DataFrame)
    (pre post : List ViewDetails) (v : ViewDetails)
    (h : v.id = none ∨ v.id = some "" ∨ v.viewUrlName = none ∨
      v.viewUrlName = some "") :
    (∀ g, sheetsForView g v = []) ∧
    generate_excel_sheets_from_views f (pre ++ v :: post) =
      generate_excel_sheets_from_views f pre ++
        generate_excel_sheets_from_views f post := by
  have hsv : ∀ g, sheetsForView g v = [] := by
    intro g
    unfold sheetsForView
    cases hid : v.id with
    | none => rfl
    | some i =>
      cases hurl : v.viewUrlName with
      | none => rfl
      | some u =>
        show sheetsForViewValid g v i u = []
        unfold sheetsForViewValid
        rcases h with h' | h' | h' | h'
        · rw [hid] at h'
          exact absurd h' (by simp)
        · rw [hid] at h'
          have hi : i = "" := by simpa using h'
          rw [if_pos (by simp [hi])]
        · rw [hurl] at h'
          exact absurd h' (by simp)
        · rw [hurl] at h'
          have hu : u = "" := by simpa using h'
          rw [if_pos (by simp [hu])]
  refine ⟨hsv, ?_⟩
  unfold generate_excel_sheets_from_views
  rw [List.flatMap_append, List.flatMap_cons, hsv f]
  simp

/-- C10 witness: the theorem applied to a descriptor with an empty
`viewUrlName` sitting between two valid views. -/
theorem C10_witness :
    (∀ g, sheetsForView g ⟨some "v-mid", some "", some "Mid"⟩ = []) ∧
    generate_excel_sheets_from_views
        (fun _ => Except.ok ⟨["X"], [[Val.int 1]]⟩)
        ([⟨some "v1", some "GoodView", none⟩] ++
          ⟨some "v-mid", some "", some "Mid"⟩ :: [⟨some "v2", some "OtherView", none⟩]) =
      generate_excel_sheets_from_views
        (fun _ => Except.ok ⟨["X"], [[Val.int 1]]⟩)
        [⟨some "v1", some "GoodView", none⟩] ++
      generate_excel_sheets_from_views
        (fun _ => Except.ok ⟨["X"], [[Val.int 1]]⟩)
        [⟨some "v2", some "OtherView", none⟩] :=
  C10_skip_invalid_views _ _ _ ⟨some "v-mid", some "", some "Mid"⟩
    (Or.inr (Or.inr (Or.inr rfl)))

end TableauExport
